import Mathlib

/-!
Shallow embedding of parts of the `reown-rust` repository, together with
theorems settling a list of claims about its specification.

Conventions used throughout this development:
* Rust byte slices and `Vec<u8>` values are modelled as `List ℕ` whose
  elements are below 256.
* Rust strings are modelled either as Lean `String` (when treated atomically)
  or as `List Char` (when parsed character by character).
* Machine integers are modelled as `ℕ`/`ℤ` with explicit reductions modulo
  `2 ^ w` at the points where the Rust code can wrap.
* Fallible Rust functions returning `Result<T, E>` are modelled as
  `Except E T`.  Rust code that can panic (out-of-bounds indexing) is
  modelled with an outer `Option`, where `none` marks a panic.
-/

set_option maxHeartbeats 1000000

deriving instance DecidableEq for Except

/-! ## relay_client: `MessageIdGenerator` (src/relay_client/src/lib.rs) -/

/-- State of `MessageIdGenerator`: the value stored in the `AtomicU8` counter.
The stored value is reduced modulo 256 on every read, matching `u8`. -/
structure MessageIdGenerator where
  next : ℕ

/-- Model of `MessageIdGenerator::next`.  The Rust code does
`next = fetch_add(1)` on the `AtomicU8` (returning the old value and wrapping
the stored one), reads the clock in milliseconds, and returns
`(timestamp << 8) | next` as a `u64`.  The clock reading is passed in as the
`timestampMs` argument. -/
def MessageIdGenerator.nextId (g : MessageIdGenerator) (timestampMs : ℕ) :
    ℕ × MessageIdGenerator :=
  ((((timestampMs % 2 ^ 64) <<< 8) % 2 ^ 64) ||| (g.next % 256),
    ⟨(g.next % 256 + 1) % 256⟩)

/-- Emits `n` consecutive message IDs from one generator, all observing the
same millisecond timestamp. -/
def MessageIdGenerator.emitSeq (g : MessageIdGenerator) (timestampMs : ℕ) :
    ℕ → List ℕ
  | 0 => []
  | n + 1 =>
    (g.nextId timestampMs).1 :: (g.nextId timestampMs).2.emitSeq timestampMs n

/-- The low 8 bits of the timestamp part of a message ID are zero. -/
theorem shifted_timestamp_mod_256 (t : ℕ) : ((t <<< 8) % 2 ^ 64) % 256 = 0 := by
  have hdvd : (2 ^ 8 : ℕ) ∣ 2 ^ 64 := pow_dvd_pow 2 (by norm_num)
  have h : ((t <<< 8) % 2 ^ 64) % 2 ^ 8 = (t <<< 8) % 2 ^ 8 :=
    Nat.mod_mod_of_dvd _ hdvd
  rw [show (256 : ℕ) = 2 ^ 8 from rfl, h, Nat.shiftLeft_eq]
  simp [Nat.mul_mod_left]

/-- Oring an 8-bit counter into a value whose low 8 bits are zero is
recovered by masking with 255. -/
theorem or_counter_low_bits (H c : ℕ) (hH : H % 256 = 0) (hc : c < 256) :
    (H ||| c) &&& 255 = c := by
  have hdistrib : (H ||| c) &&& 255 = (H &&& 255) ||| (c &&& 255) := by
    rw [Nat.and_comm, Nat.and_or_distrib_left, Nat.and_comm 255 H, Nat.and_comm 255 c]
  rw [hdistrib, show (255 : ℕ) = 2 ^ 8 - 1 from rfl,
    Nat.and_pow_two_sub_one_eq_mod, Nat.and_pow_two_sub_one_eq_mod]
  have h1 : H % 2 ^ 8 = 0 := hH
  have h2 : c % 2 ^ 8 = c := Nat.mod_eq_of_lt hc
  rw [h1, h2, Nat.zero_or]

/-- Closed form of the emitted sequence: the `i`-th ID combines the shifted
timestamp with counter value `(c + i) % 256`. -/
theorem emitSeq_eq_map (t : ℕ) : ∀ (n c : ℕ),
    MessageIdGenerator.emitSeq ⟨c⟩ t n =
      (List.range n).map
        (fun i => ((((t % 2 ^ 64) <<< 8) % 2 ^ 64) ||| ((c + i) % 256))) := by
  intro n
  induction n with
  | zero => intro c; rfl
  | succ m ih =>
    intro c
    rw [List.range_succ_eq_map, List.map_cons, List.map_map]
    simp only [MessageIdGenerator.emitSeq, MessageIdGenerator.nextId]
    rw [ih]
    congr 1
    apply List.map_congr_left
    intro i _
    simp only [Function.comp_apply]
    congr 1
    omega

/-- C2: at most 256 IDs emitted within one millisecond (same timestamp) by a
single `MessageIdGenerator` are pairwise distinct.  Each ID is
`(timestamp_ms << 8) | counter` with the 8-bit counter incremented on every
call. -/
theorem messageIdGenerator_emitSeq_nodup (g : MessageIdGenerator)
    (timestampMs n : ℕ) (h : n ≤ 256) :
    (g.emitSeq timestampMs n).Nodup := by
  obtain ⟨c⟩ := g
  rw [emitSeq_eq_map]
  apply List.Nodup.map_on _ (List.nodup_range _)
  intro i hi j hj hij
  simp only [List.mem_range] at hi hj
  have hH : (((timestampMs % 2 ^ 64) <<< 8) % 2 ^ 64) % 256 = 0 :=
    shifted_timestamp_mod_256 _
  have h1 := or_counter_low_bits _ _ hH (Nat.mod_lt (c + i) (by norm_num) : (c + i) % 256 < 256)
  have h2 := or_counter_low_bits _ _ hH (Nat.mod_lt (c + j) (by norm_num) : (c + j) % 256 < 256)
  rw [hij] at h1
  rw [h1] at h2
  omega

/-- Witness for C2 at a concrete timestamp and count. -/
theorem messageIdGenerator_emitSeq_nodup_witness :
    (3 : ℕ) ≤ 256 ∧
      ((⟨0⟩ : MessageIdGenerator).emitSeq 1700000000000 3).Nodup :=
  ⟨by decide, messageIdGenerator_emitSeq_nodup ⟨0⟩ 1700000000000 3 (by decide)⟩

/-! ## relay_rpc: JWT claim verification (src/relay_rpc/src/jwt.rs) -/

/-- Model of `JwtError` (payload-carrying variants keep their payloads). -/
inductive JwtError where
  | Format
  | Encoding
  | Header
  | Expired (expiration : Option ℤ)
  | NotYetValid (basicIat nowTimeLeeway timeLeeway : ℤ)
  | InvalidAudience
  | Signature
  | InvalidKeypair
  | Serialization
deriving DecidableEq

/-- Model of `JwtBasicClaims`.  `iss` is the decoded 32-byte public key,
which `verify_basic` never inspects. -/
structure JwtBasicClaims where
  iss : List ℕ
  aud : String
  sub : String
  iat : ℤ
  exp : Option ℤ

/-- Default verification leeway, `JWT_VALIDATION_TIME_LEEWAY_SECS`. -/
def JWT_VALIDATION_TIME_LEEWAY_SECS : ℤ := 120

/-- Interprets an integer as a wrapping `i64` (Rust release-mode overflow
semantics for `+` and `-`). -/
def wrapI64 (x : ℤ) : ℤ := (x + 2 ^ 63) % 2 ^ 64 - 2 ^ 63

/-- Model of `VerifyableClaims::verify_basic`.  The `HashSet<String>` of
allowed audiences is modelled as a list, the clock reading `Utc::now()`
is the `now` argument. -/
def verifyBasic (c : JwtBasicClaims) (aud : List String) (timeLeeway : Option ℤ)
    (now : ℤ) : Except JwtError Unit :=
  let tl := timeLeeway.getD JWT_VALIDATION_TIME_LEEWAY_SECS
  if (match c.exp with
      | some e => decide (wrapI64 (now - tl) > e)
      | none => false) then
    Except.error (JwtError.Expired c.exp)
  else if wrapI64 (now + tl) < c.iat then
    Except.error (JwtError.NotYetValid c.iat (wrapI64 (now + tl)) tl)
  else if c.aud ∉ aud then
    Except.error JwtError.InvalidAudience
  else
    Except.ok ()

/-- A wrapping `i64` addition or subtraction that stays in range is exact. -/
theorem wrapI64_eq_self (x : ℤ) (h1 : -2 ^ 63 ≤ x) (h2 : x < 2 ^ 63) :
    wrapI64 x = x := by
  unfold wrapI64
  have h : (x + 2 ^ 63) % 2 ^ 64 = x + 2 ^ 63 :=
    Int.emod_eq_of_lt (by omega) (by omega)
  omega

/-- C3: `verify_basic` checks expiry first (`Expired` when
`now - leeway > exp` and `exp` is present), then issue time (`NotYetValid`
when `now + leeway < iat`), then audience (`InvalidAudience` when the claims'
`aud` is not in the allowed set), and returns `Ok` otherwise; an unsupplied
leeway defaults to 120 seconds.  The bounds on `now` and the leeway keep the
`i64` arithmetic of the source away from overflow. -/
theorem verifyBasic_spec (c : JwtBasicClaims) (aud : List String)
    (timeLeeway : Option ℤ) (now : ℤ)
    (hnow : |now| ≤ 2 ^ 61)
    (htl : |timeLeeway.getD JWT_VALIDATION_TIME_LEEWAY_SECS| ≤ 2 ^ 61) :
    (timeLeeway = none →
      timeLeeway.getD JWT_VALIDATION_TIME_LEEWAY_SECS = 120) ∧
    ((∃ e, c.exp = some e ∧
        now - timeLeeway.getD JWT_VALIDATION_TIME_LEEWAY_SECS > e) →
      verifyBasic c aud timeLeeway now = Except.error (JwtError.Expired c.exp)) ∧
    ((∀ e, c.exp = some e →
        now - timeLeeway.getD JWT_VALIDATION_TIME_LEEWAY_SECS ≤ e) →
      now + timeLeeway.getD JWT_VALIDATION_TIME_LEEWAY_SECS < c.iat →
      verifyBasic c aud timeLeeway now =
        Except.error (JwtError.NotYetValid c.iat
          (now + timeLeeway.getD JWT_VALIDATION_TIME_LEEWAY_SECS)
          (timeLeeway.getD JWT_VALIDATION_TIME_LEEWAY_SECS))) ∧
    ((∀ e, c.exp = some e →
        now - timeLeeway.getD JWT_VALIDATION_TIME_LEEWAY_SECS ≤ e) →
      ¬(now + timeLeeway.getD JWT_VALIDATION_TIME_LEEWAY_SECS < c.iat) →
      c.aud ∉ aud →
      verifyBasic c aud timeLeeway now = Except.error JwtError.InvalidAudience) ∧
    ((∀ e, c.exp = some e →
        now - timeLeeway.getD JWT_VALIDATION_TIME_LEEWAY_SECS ≤ e) →
      ¬(now + timeLeeway.getD JWT_VALIDATION_TIME_LEEWAY_SECS < c.iat) →
      c.aud ∈ aud →
      verifyBasic c aud timeLeeway now = Except.ok ()) := by
  rw [abs_le] at hnow htl
  set tl := timeLeeway.getD JWT_VALIDATION_TIME_LEEWAY_SECS with htldef
  have hsub : wrapI64 (now - tl) = now - tl :=
    wrapI64_eq_self _ (by obtain ⟨a1, a2⟩ := hnow; obtain ⟨b1, b2⟩ := htl; omega)
      (by obtain ⟨a1, a2⟩ := hnow; obtain ⟨b1, b2⟩ := htl; omega)
  have hadd : wrapI64 (now + tl) = now + tl :=
    wrapI64_eq_self _ (by obtain ⟨a1, a2⟩ := hnow; obtain ⟨b1, b2⟩ := htl; omega)
      (by obtain ⟨a1, a2⟩ := hnow; obtain ⟨b1, b2⟩ := htl; omega)
  refine ⟨fun hnone => by rw [htldef, hnone]; rfl, ?_, ?_, ?_, ?_⟩
  · rintro ⟨e, he, hgt⟩
    simp only [verifyBasic, ← htldef, he]
    simp [hsub, hgt]
  · intro hexp hiat
    simp only [verifyBasic, ← htldef]
    cases hc : c.exp with
    | none => simp [hadd, hiat]
    | some e =>
      have hle := hexp e hc
      simp [hsub, hadd, hiat, show ¬(now - tl > e) from by omega]
  · intro hexp hiat hmem
    simp only [verifyBasic, ← htldef]
    cases hc : c.exp with
    | none => simp [hadd, hiat, hmem]
    | some e =>
      have hle := hexp e hc
      simp [hsub, hadd, hiat, hmem, show ¬(now - tl > e) from by omega]
  · intro hexp hiat hmem
    simp only [verifyBasic, ← htldef]
    cases hc : c.exp with
    | none => simp [hadd, hiat, hmem]
    | some e =>
      have hle := hexp e hc
      simp [hsub, hadd, hiat, hmem, show ¬(now - tl > e) from by omega]

/-- Witness for C3: a token issued at 0 expiring at 100, checked at time 0
against a matching audience, with the default leeway. -/
theorem verifyBasic_spec_witness :
    |(0 : ℤ)| ≤ 2 ^ 61 ∧
      verifyBasic ⟨[], "wss://relay", "https://svc", 0, some 100⟩
        ["wss://relay"] none 0 = Except.ok () := by
  refine ⟨by decide, ?_⟩
  exact (verifyBasic_spec ⟨[], "wss://relay", "https://svc", 0, some 100⟩
      ["wss://relay"] none 0 (by decide) (by decide)).2.2.2.2
    (by intro e he; simp at he; subst he; decide) (by decide) (by simp)

/-- Returns `true` exactly on the `Expired` verification error. -/
def isExpiredErr : Except JwtError Unit → Bool
  | Except.error (JwtError.Expired _) => true
  | _ => false

/-- C10: claims whose `exp` field is `None` never fail verification with
`Expired`, for any audience set, leeway and current time. -/
theorem verifyBasic_no_exp_never_expired (iss : List ℕ) (aud sub : String)
    (iat : ℤ) (audSet : List String) (timeLeeway : Option ℤ) (now : ℤ) :
    isExpiredErr (verifyBasic ⟨iss, aud, sub, iat, none⟩ audSet timeLeeway now)
      = false := by
  unfold verifyBasic
  simp only [Bool.false_eq_true, if_false]
  split
  · rfl
  · split
    · rfl
    · rfl

/-! ## relay_rpc: topic decoding and batch request validation
(src/relay_rpc/src/domain.rs, src/relay_rpc/src/rpc.rs) -/

/-- Model of `domain::DecodingError`. -/
inductive DecodingError where
  | Encoding
  | Length
deriving DecidableEq

/-- Value of one hex digit under `data_encoding::HEXLOWER_PERMISSIVE`
(both cases accepted). -/
def hexVal (c : Char) : Option ℕ :=
  if '0' ≤ c ∧ c ≤ '9' then some (c.toNat - '0'.toNat)
  else if 'a' ≤ c ∧ c ≤ 'f' then some (c.toNat - 'a'.toNat + 10)
  else if 'A' ≤ c ∧ c ≤ 'F' then some (c.toNat - 'A'.toNat + 10)
  else none

/-- Decodes a hex string two characters per byte; `none` on a bad digit or
odd length. -/
def hexDecodeBytes : List Char → Option (List ℕ)
  | [] => some []
  | [_] => none
  | c1 :: c2 :: rest =>
    match hexVal c1, hexVal c2, hexDecodeBytes rest with
    | some v1, some v2, some bs => some ((v1 * 16 + v2) :: bs)
    | _, _, _ => none

/-- Model of the `FromStr` impl generated by `impl_byte_array_newtype!` for
`DecodedTopic` (32 bytes): rejects empty input, odd length and decoded
lengths other than 32 with `Length`, bad digits with `Encoding`. -/
def topicDecode (s : List Char) : Except DecodingError (List ℕ) :=
  if s.length = 0 then Except.error DecodingError.Length
  else if s.length % 2 ≠ 0 then Except.error DecodingError.Length
  else if s.length / 2 ≠ 32 then Except.error DecodingError.Length
  else
    match hexDecodeBytes s with
    | some bs => Except.ok bs
    | none => Except.error DecodingError.Encoding

/-- Model of `rpc::error::PayloadError`. -/
inductive RpcPayloadError where
  | InvalidMethod
  | InvalidParams
  | PayloadSizeExceeded
  | InvalidTopic
  | InvalidSubscriptionId
  | InvalidRequestId
  | InvalidJsonRpcVersion
  | BatchLimitExceeded
  | BatchEmpty
  | Serialization
deriving DecidableEq

def MAX_SUBSCRIPTION_BATCH_SIZE : ℕ := 500

def MAX_FETCH_BATCH_SIZE : ℕ := 500

def MAX_RECEIVE_BATCH_SIZE : ℕ := 500

/-- The `for topic in topics { topic.decode().map_err(InvalidTopic)?; }`
loop shared by the batch validators. -/
def validateEachTopic : List (List Char) → Except RpcPayloadError Unit
  | [] => Except.ok ()
  | t :: ts =>
    match topicDecode t with
    | Except.ok _ => validateEachTopic ts
    | Except.error _ => Except.error RpcPayloadError.InvalidTopic

/-- Model of `BatchSubscribe::validate_topics` (also used by
`BatchSubscribeBlocking`). -/
def batchSubscribeValidateTopics (topics : List (List Char)) :
    Except RpcPayloadError Unit :=
  if topics.length = 0 then Except.error RpcPayloadError.BatchEmpty
  else if topics.length > MAX_SUBSCRIPTION_BATCH_SIZE then
    Except.error RpcPayloadError.BatchLimitExceeded
  else validateEachTopic topics

/-- Model of `rpc::Unsubscribe` request params. -/
structure Unsubscribe where
  topic : List Char

/-- Model of `Unsubscribe::validate` (subscription ID validation is disabled
in the source). -/
def unsubscribeValidate (u : Unsubscribe) : Except RpcPayloadError Unit :=
  match topicDecode u.topic with
  | Except.ok _ => Except.ok ()
  | Except.error _ => Except.error RpcPayloadError.InvalidTopic

/-- The `for sub in &self.subscriptions { sub.validate()?; }` loop of
`BatchUnsubscribe::validate`. -/
def validateEachUnsubscribe : List Unsubscribe → Except RpcPayloadError Unit
  | [] => Except.ok ()
  | u :: us =>
    match unsubscribeValidate u with
    | Except.ok _ => validateEachUnsubscribe us
    | Except.error e => Except.error e

/-- Model of `BatchUnsubscribe::validate`. -/
def batchUnsubscribeValidate (subscriptions : List Unsubscribe) :
    Except RpcPayloadError Unit :=
  if subscriptions.length = 0 then Except.error RpcPayloadError.BatchEmpty
  else if subscriptions.length > MAX_SUBSCRIPTION_BATCH_SIZE then
    Except.error RpcPayloadError.BatchLimitExceeded
  else validateEachUnsubscribe subscriptions

/-- Model of `BatchFetchMessages::validate`. -/
def batchFetchValidate (topics : List (List Char)) :
    Except RpcPayloadError Unit :=
  if topics.length = 0 then Except.error RpcPayloadError.BatchEmpty
  else if topics.length > MAX_FETCH_BATCH_SIZE then
    Except.error RpcPayloadError.BatchLimitExceeded
  else validateEachTopic topics

/-- Model of `rpc::Receipt`. -/
structure Receipt where
  topic : List Char
  messageId : ℕ

/-- The receipt-topic decoding loop of `BatchReceiveMessages::validate`. -/
def validateEachReceipt : List Receipt → Except RpcPayloadError Unit
  | [] => Except.ok ()
  | r :: rs =>
    match topicDecode r.topic with
    | Except.ok _ => validateEachReceipt rs
    | Except.error _ => Except.error RpcPayloadError.InvalidTopic

/-- Model of `BatchReceiveMessages::validate`. -/
def batchReceiveValidate (receipts : List Receipt) :
    Except RpcPayloadError Unit :=
  if receipts.length = 0 then Except.error RpcPayloadError.BatchEmpty
  else if receipts.length > MAX_RECEIVE_BATCH_SIZE then
    Except.error RpcPayloadError.BatchLimitExceeded
  else validateEachReceipt receipts

/-- Modelled from the spec: the outcome the claim predicts for a batch of
size `s` whose elements are individually valid. -/
def specBatchOutcome (s : ℕ) : Except RpcPayloadError Unit :=
  if s = 0 then Except.error RpcPayloadError.BatchEmpty
  else if s > 500 then Except.error RpcPayloadError.BatchLimitExceeded
  else Except.ok ()

theorem validateEachTopic_ok (topics : List (List Char))
    (h : ∀ t ∈ topics, (topicDecode t).isOk = true) :
    validateEachTopic topics = Except.ok () := by
  induction topics with
  | nil => rfl
  | cons t ts ih =>
    have ht := h t (List.mem_cons_self t ts)
    unfold validateEachTopic
    cases hd : topicDecode t with
    | ok _ => exact ih fun x hx => h x (List.mem_cons_of_mem t hx)
    | error _ => rw [hd] at ht; simp [Except.isOk, Except.toBool] at ht

theorem validateEachUnsubscribe_ok (subs : List Unsubscribe)
    (h : ∀ u ∈ subs, (topicDecode u.topic).isOk = true) :
    validateEachUnsubscribe subs = Except.ok () := by
  induction subs with
  | nil => rfl
  | cons u us ih =>
    have hu := h u (List.mem_cons_self u us)
    unfold validateEachUnsubscribe unsubscribeValidate
    cases hd : topicDecode u.topic with
    | ok _ => exact ih fun x hx => h x (List.mem_cons_of_mem u hx)
    | error _ => rw [hd] at hu; simp [Except.isOk, Except.toBool] at hu

theorem validateEachReceipt_ok (rs : List Receipt)
    (h : ∀ r ∈ rs, (topicDecode r.topic).isOk = true) :
    validateEachReceipt rs = Except.ok () := by
  induction rs with
  | nil => rfl
  | cons r rs' ih =>
    have hr := h r (List.mem_cons_self r rs')
    unfold validateEachReceipt
    cases hd : topicDecode r.topic with
    | ok _ => exact ih fun x hx => h x (List.mem_cons_of_mem r hx)
    | error _ => rw [hd] at hr; simp [Except.isOk, Except.toBool] at hr

/-- C4: with individually valid elements, every batch validator returns
`BatchEmpty` for size 0, `Ok` for sizes 1..=500 and `BatchLimitExceeded`
beyond 500. -/
theorem batchValidate_spec (topics fetchTopics : List (List Char))
    (subs : List Unsubscribe) (receipts : List Receipt)
    (h1 : ∀ t ∈ topics, (topicDecode t).isOk = true)
    (h2 : ∀ t ∈ fetchTopics, (topicDecode t).isOk = true)
    (h3 : ∀ u ∈ subs, (topicDecode u.topic).isOk = true)
    (h4 : ∀ r ∈ receipts, (topicDecode r.topic).isOk = true) :
    batchSubscribeValidateTopics topics = specBatchOutcome topics.length ∧
    batchFetchValidate fetchTopics = specBatchOutcome fetchTopics.length ∧
    batchUnsubscribeValidate subs = specBatchOutcome subs.length ∧
    batchReceiveValidate receipts = specBatchOutcome receipts.length := by
  refine ⟨?_, ?_, ?_, ?_⟩
  · unfold batchSubscribeValidateTopics specBatchOutcome MAX_SUBSCRIPTION_BATCH_SIZE
    split
    · rfl
    · split
      · rfl
      · exact validateEachTopic_ok topics h1
  · unfold batchFetchValidate specBatchOutcome MAX_FETCH_BATCH_SIZE
    split
    · rfl
    · split
      · rfl
      · exact validateEachTopic_ok fetchTopics h2
  · unfold batchUnsubscribeValidate specBatchOutcome MAX_SUBSCRIPTION_BATCH_SIZE
    split
    · rfl
    · split
      · rfl
      · exact validateEachUnsubscribe_ok subs h3
  · unfold batchReceiveValidate specBatchOutcome MAX_RECEIVE_BATCH_SIZE
    split
    · rfl
    · split
      · rfl
      · exact validateEachReceipt_ok receipts h4

/-- Witness for C4: singleton batches built from one valid 64-hex-char
topic. -/
theorem batchValidate_spec_witness :
    (∀ t ∈ [List.replicate 64 'a'], (topicDecode t).isOk = true) ∧
      batchSubscribeValidateTopics [List.replicate 64 'a'] = Except.ok () := by
  have h1 : ∀ t ∈ [List.replicate 64 'a'], (topicDecode t).isOk = true := by decide
  refine ⟨h1, ?_⟩
  have h := (batchValidate_spec [List.replicate 64 'a'] [] [] [] h1
    (by decide) (by decide) (by decide)).1
  rw [h]
  rfl

/-! ## relay_rpc: typed RPC errors and the wire `ErrorData` format
(src/relay_rpc/src/rpc/error.rs) -/

/-- Model of `rpc::error::AuthError`. -/
inductive AuthError where
  | ProjectNotFound
  | ProjectIdNotSpecified
  | ProjectInactive
  | OriginNotAllowed
  | InvalidJwt
  | MissingJwt
  | CountryBlocked
deriving DecidableEq

/-- Model of `rpc::error::InternalError`. -/
inductive InternalError where
  | StorageError
  | Serialization
  | Unknown
deriving DecidableEq

/-- Model of `rpc::error::InvalidErrorData`. -/
inductive InvalidErrorData where
  | mk
deriving DecidableEq

/-- Model of `rpc::ErrorData`, the wire representation of an error. -/
structure ErrorData where
  code : ℤ
  message : String
  data : Option String
deriving DecidableEq

/-- `strum::IntoStaticStr` tag of an `AuthError` (the variant name). -/
def AuthError.tag : AuthError → String
  | AuthError.ProjectNotFound => "ProjectNotFound"
  | AuthError.ProjectIdNotSpecified => "ProjectIdNotSpecified"
  | AuthError.ProjectInactive => "ProjectInactive"
  | AuthError.OriginNotAllowed => "OriginNotAllowed"
  | AuthError.InvalidJwt => "InvalidJwt"
  | AuthError.MissingJwt => "MissingJwt"
  | AuthError.CountryBlocked => "CountryBlocked"

/-- `strum::EnumString` parser for `AuthError`, wrapped by
`ServiceError::from_tag`. -/
def AuthError.fromTag (s : String) : Except InvalidErrorData AuthError :=
  if s = "ProjectNotFound" then Except.ok AuthError.ProjectNotFound
  else if s = "ProjectIdNotSpecified" then Except.ok AuthError.ProjectIdNotSpecified
  else if s = "ProjectInactive" then Except.ok AuthError.ProjectInactive
  else if s = "OriginNotAllowed" then Except.ok AuthError.OriginNotAllowed
  else if s = "InvalidJwt" then Except.ok AuthError.InvalidJwt
  else if s = "MissingJwt" then Except.ok AuthError.MissingJwt
  else if s = "CountryBlocked" then Except.ok AuthError.CountryBlocked
  else Except.error InvalidErrorData.mk

/-- `thiserror` display string of an `AuthError`. -/
def AuthError.msg : AuthError → String
  | AuthError.ProjectNotFound => "Project not found"
  | AuthError.ProjectIdNotSpecified => "Project ID not specified"
  | AuthError.ProjectInactive => "Project inactive"
  | AuthError.OriginNotAllowed => "Origin not allowed"
  | AuthError.InvalidJwt => "Invalid JWT"
  | AuthError.MissingJwt => "Missing JWT"
  | AuthError.CountryBlocked => "Country blocked"

/-- `strum::IntoStaticStr` tag of a `PayloadError` (the variant name). -/
def RpcPayloadError.tag : RpcPayloadError → String
  | RpcPayloadError.InvalidMethod => "InvalidMethod"
  | RpcPayloadError.InvalidParams => "InvalidParams"
  | RpcPayloadError.PayloadSizeExceeded => "PayloadSizeExceeded"
  | RpcPayloadError.InvalidTopic => "InvalidTopic"
  | RpcPayloadError.InvalidSubscriptionId => "InvalidSubscriptionId"
  | RpcPayloadError.InvalidRequestId => "InvalidRequestId"
  | RpcPayloadError.InvalidJsonRpcVersion => "InvalidJsonRpcVersion"
  | RpcPayloadError.BatchLimitExceeded => "BatchLimitExceeded"
  | RpcPayloadError.BatchEmpty => "BatchEmpty"
  | RpcPayloadError.Serialization => "Serialization"

/-- `strum::EnumString` parser for `PayloadError`. -/
def RpcPayloadError.fromTag (s : String) : Except InvalidErrorData RpcPayloadError :=
  if s = "InvalidMethod" then Except.ok RpcPayloadError.InvalidMethod
  else if s = "InvalidParams" then Except.ok RpcPayloadError.InvalidParams
  else if s = "PayloadSizeExceeded" then Except.ok RpcPayloadError.PayloadSizeExceeded
  else if s = "InvalidTopic" then Except.ok RpcPayloadError.InvalidTopic
  else if s = "InvalidSubscriptionId" then Except.ok RpcPayloadError.InvalidSubscriptionId
  else if s = "InvalidRequestId" then Except.ok RpcPayloadError.InvalidRequestId
  else if s = "InvalidJsonRpcVersion" then Except.ok RpcPayloadError.InvalidJsonRpcVersion
  else if s = "BatchLimitExceeded" then Except.ok RpcPayloadError.BatchLimitExceeded
  else if s = "BatchEmpty" then Except.ok RpcPayloadError.BatchEmpty
  else if s = "Serialization" then Except.ok RpcPayloadError.Serialization
  else Except.error InvalidErrorData.mk

/-- `thiserror` display string of a `PayloadError`. -/
def RpcPayloadError.msg : RpcPayloadError → String
  | RpcPayloadError.InvalidMethod => "Invalid request method"
  | RpcPayloadError.InvalidParams => "Invalid request parameters"
  | RpcPayloadError.PayloadSizeExceeded => "Payload size exceeded"
  | RpcPayloadError.InvalidTopic => "Topic decoding failed"
  | RpcPayloadError.InvalidSubscriptionId => "Subscription ID decoding failed"
  | RpcPayloadError.InvalidRequestId => "Invalid request ID"
  | RpcPayloadError.InvalidJsonRpcVersion => "Invalid JSON RPC version"
  | RpcPayloadError.BatchLimitExceeded => "The batch contains too many items"
  | RpcPayloadError.BatchEmpty => "The batch contains no items"
  | RpcPayloadError.Serialization => "Failed to deserialize request"

/-- `strum::IntoStaticStr` tag of an `InternalError` (the variant name). -/
def InternalError.tag : InternalError → String
  | InternalError.StorageError => "StorageError"
  | InternalError.Serialization => "Serialization"
  | InternalError.Unknown => "Unknown"

/-- `strum::EnumString` parser for `InternalError`. -/
def InternalError.fromTag (s : String) : Except InvalidErrorData InternalError :=
  if s = "StorageError" then Except.ok InternalError.StorageError
  else if s = "Serialization" then Except.ok InternalError.Serialization
  else if s = "Unknown" then Except.ok InternalError.Unknown
  else Except.error InvalidErrorData.mk

/-- `thiserror` display string of an `InternalError`. -/
def InternalError.msg : InternalError → String
  | InternalError.StorageError => "Storage operation failed"
  | InternalError.Serialization => "Failed to serialize response"
  | InternalError.Unknown => "Internal error"

/-- Model of `rpc::error::Error<T>`, generic over the handler error type. -/
inductive RpcError (T : Type) where
  | Auth (e : AuthError)
  | Payload (e : RpcPayloadError)
  | Handler (t : T)
  | Internal (e : InternalError)
  | TooManyRequests
deriving DecidableEq

def CODE_AUTH : ℤ := 3000

def CODE_TOO_MANY_REQUESTS : ℤ := 3001

def CODE_PAYLOAD : ℤ := -32600

def CODE_HANDLER : ℤ := -32000

def CODE_INTERNAL : ℤ := -32603

/-- Model of `Error::<T>::code`. -/
def RpcError.code {T : Type} : RpcError T → ℤ
  | RpcError.Auth _ => CODE_AUTH
  | RpcError.TooManyRequests => CODE_TOO_MANY_REQUESTS
  | RpcError.Payload _ => CODE_PAYLOAD
  | RpcError.Handler _ => CODE_HANDLER
  | RpcError.Internal _ => CODE_INTERNAL

/-- Model of `Error::<T>::tag`; `tagT` is the handler type's
`ServiceError::tag`. -/
def RpcError.tag {T : Type} (tagT : T → String) : RpcError T → String
  | RpcError.Auth e => e.tag
  | RpcError.Payload e => e.tag
  | RpcError.Handler t => tagT t
  | RpcError.Internal e => e.tag
  | RpcError.TooManyRequests => "TooManyRequests"

/-- `thiserror` display string of `Error<T>`; `displayT` is the handler
type's display. -/
def RpcError.display {T : Type} (displayT : T → String) : RpcError T → String
  | RpcError.Auth e => "Auth error: " ++ e.msg
  | RpcError.Payload e => "Invalid payload: " ++ e.msg
  | RpcError.Handler t => "Request handler error: " ++ displayT t
  | RpcError.Internal e => "Internal error: " ++ e.msg
  | RpcError.TooManyRequests => "Too many requests"

/-- Model of `From<Error<T>> for ErrorData`. -/
def RpcError.toErrorData {T : Type} (tagT : T → String) (displayT : T → String)
    (e : RpcError T) : ErrorData :=
  ⟨e.code, e.display displayT, some (e.tag tagT)⟩

/-- Model of `try_parse_error`: requires the `data` tag to be present, then
delegates to the type's `from_tag`. -/
def tryParseErrTag {α : Type} (fromTag : String → Except InvalidErrorData α) :
    Option String → Except InvalidErrorData α
  | some s => fromTag s
  | none => Except.error InvalidErrorData.mk

/-- Model of `TryFrom<ErrorData> for Error<T>`: dispatches on the error code,
then recovers the variant from the `data` tag (except for
`CODE_TOO_MANY_REQUESTS`, which carries no tag). -/
def RpcError.tryFromErrorData {T : Type}
    (fromTagT : String → Except InvalidErrorData T) (ed : ErrorData) :
    Except InvalidErrorData (RpcError T) :=
  if ed.code = CODE_AUTH then
    (tryParseErrTag AuthError.fromTag ed.data).map RpcError.Auth
  else if ed.code = CODE_TOO_MANY_REQUESTS then
    Except.ok RpcError.TooManyRequests
  else if ed.code = CODE_PAYLOAD then
    (tryParseErrTag RpcPayloadError.fromTag ed.data).map RpcError.Payload
  else if ed.code = CODE_HANDLER then
    (tryParseErrTag fromTagT ed.data).map RpcError.Handler
  else if ed.code = CODE_INTERNAL then
    (tryParseErrTag InternalError.fromTag ed.data).map RpcError.Internal
  else Except.error InvalidErrorData.mk

theorem authError_fromTag_tag (e : AuthError) : AuthError.fromTag e.tag = Except.ok e := by
  cases e <;> rfl

theorem rpcPayloadError_fromTag_tag (e : RpcPayloadError) :
    RpcPayloadError.fromTag e.tag = Except.ok e := by
  cases e <;> rfl

theorem internalError_fromTag_tag (e : InternalError) :
    InternalError.fromTag e.tag = Except.ok e := by
  cases e <;> rfl

/-- C7 (amended): encoding a typed `Error<T>` to `ErrorData` and decoding it
back recovers the original variant (given a lawful handler tag codec); the
decoder ignores the message; an unknown code yields `InvalidErrorData`; and
for every code other than 3001 (`TooManyRequests`, whose decoder ignores the
tag) an absent or unknown `data` tag yields `InvalidErrorData`. -/
theorem rpcError_errorData_round_trip {T : Type}
    (tagT : T → String) (displayT : T → String)
    (fromTagT : String → Except InvalidErrorData T)
    (hT : ∀ t, fromTagT (tagT t) = Except.ok t) :
    (∀ e : RpcError T,
      RpcError.tryFromErrorData fromTagT (e.toErrorData tagT displayT) =
        Except.ok e) ∧
    (∀ ed : ErrorData,
      ed.code ≠ CODE_AUTH → ed.code ≠ CODE_TOO_MANY_REQUESTS →
      ed.code ≠ CODE_PAYLOAD → ed.code ≠ CODE_HANDLER →
      ed.code ≠ CODE_INTERNAL →
      RpcError.tryFromErrorData (T := T) fromTagT ed =
        Except.error InvalidErrorData.mk) ∧
    (∀ (ed : ErrorData) (m : String),
      RpcError.tryFromErrorData (T := T) fromTagT ⟨ed.code, m, ed.data⟩ =
        RpcError.tryFromErrorData (T := T) fromTagT ed) ∧
    (∀ ed : ErrorData, ed.data = none → ed.code ≠ CODE_TOO_MANY_REQUESTS →
      RpcError.tryFromErrorData (T := T) fromTagT ed =
        Except.error InvalidErrorData.mk) ∧
    (∀ (ed : ErrorData) (s : String), ed.data = some s →
      (ed.code = CODE_AUTH →
        AuthError.fromTag s = Except.error InvalidErrorData.mk →
        RpcError.tryFromErrorData (T := T) fromTagT ed =
          Except.error InvalidErrorData.mk) ∧
      (ed.code = CODE_PAYLOAD →
        RpcPayloadError.fromTag s = Except.error InvalidErrorData.mk →
        RpcError.tryFromErrorData (T := T) fromTagT ed =
          Except.error InvalidErrorData.mk) ∧
      (ed.code = CODE_HANDLER →
        fromTagT s = Except.error InvalidErrorData.mk →
        RpcError.tryFromErrorData (T := T) fromTagT ed =
          Except.error InvalidErrorData.mk) ∧
      (ed.code = CODE_INTERNAL →
        InternalError.fromTag s = Except.error InvalidErrorData.mk →
        RpcError.tryFromErrorData (T := T) fromTagT ed =
          Except.error InvalidErrorData.mk)) := by
  refine ⟨?_, ?_, ?_, ?_, ?_⟩
  · intro e
    cases e with
    | Auth e =>
      simp [RpcError.toErrorData, RpcError.tryFromErrorData, RpcError.code,
        RpcError.tag, tryParseErrTag, authError_fromTag_tag, Except.map]
    | Payload e =>
      simp [RpcError.toErrorData, RpcError.tryFromErrorData, RpcError.code,
        RpcError.tag, tryParseErrTag, rpcPayloadError_fromTag_tag, Except.map,
        CODE_PAYLOAD, CODE_AUTH, CODE_TOO_MANY_REQUESTS]
    | Handler t =>
      simp [RpcError.toErrorData, RpcError.tryFromErrorData, RpcError.code,
        RpcError.tag, tryParseErrTag, hT, Except.map,
        CODE_HANDLER, CODE_AUTH, CODE_TOO_MANY_REQUESTS, CODE_PAYLOAD]
    | Internal e =>
      simp [RpcError.toErrorData, RpcError.tryFromErrorData, RpcError.code,
        RpcError.tag, tryParseErrTag, internalError_fromTag_tag, Except.map,
        CODE_INTERNAL, CODE_AUTH, CODE_TOO_MANY_REQUESTS, CODE_PAYLOAD,
        CODE_HANDLER]
    | TooManyRequests =>
      simp [RpcError.toErrorData, RpcError.tryFromErrorData, RpcError.code,
        RpcError.tag, CODE_TOO_MANY_REQUESTS, CODE_AUTH]
  · intro ed h1 h2 h3 h4 h5
    simp [RpcError.tryFromErrorData, h1, h2, h3, h4, h5]
  · intro ed m
    rfl
  · intro ed hdata hcode
    unfold RpcError.tryFromErrorData
    rw [hdata]
    split_ifs <;> rfl
  · intro ed s hdata
    refine ⟨?_, ?_, ?_, ?_⟩ <;> intro hcode herr <;>
      simp [RpcError.tryFromErrorData, hcode, hdata, tryParseErrTag, herr,
        Except.map, CODE_AUTH, CODE_TOO_MANY_REQUESTS, CODE_PAYLOAD,
        CODE_HANDLER, CODE_INTERNAL]

/-- Witness for C7's amended round trip, instantiated at the concrete
handler error type `GenericError`. -/
inductive GenericError where
  | Unknown
deriving DecidableEq

/-- `strum::IntoStaticStr` tag of `rpc::GenericError`. -/
def GenericError.tag : GenericError → String
  | GenericError.Unknown => "Unknown"

/-- `strum::EnumString` parser for `rpc::GenericError`. -/
def GenericError.fromTag (s : String) : Except InvalidErrorData GenericError :=
  if s = "Unknown" then Except.ok GenericError.Unknown
  else Except.error InvalidErrorData.mk

/-- `thiserror` display string of `rpc::GenericError`. -/
def GenericError.msg : GenericError → String
  | GenericError.Unknown => "Unknown error"

theorem rpcError_errorData_round_trip_witness :
    (∀ t : GenericError, GenericError.fromTag (GenericError.tag t) =
        Except.ok t) ∧
      RpcError.tryFromErrorData GenericError.fromTag
        ((RpcError.Payload (T := GenericError)
            RpcPayloadError.BatchLimitExceeded).toErrorData
          GenericError.tag GenericError.msg) =
        Except.ok (RpcError.Payload RpcPayloadError.BatchLimitExceeded) := by
  have h : ∀ t : GenericError, GenericError.fromTag (GenericError.tag t) =
      Except.ok t := fun t => by cases t; rfl
  exact ⟨h, (rpcError_errorData_round_trip GenericError.tag GenericError.msg
    GenericError.fromTag h).1 _⟩

/-- C7 counterexample to the claim as stated: an `ErrorData` with code 3001
(`TooManyRequests`) and an absent `data` tag decodes successfully instead of
yielding `InvalidErrorData`. -/
theorem tryFromErrorData_code3001_none_ok :
    RpcError.tryFromErrorData (T := GenericError) GenericError.fromTag
      ⟨3001, "", none⟩ = Except.ok RpcError.TooManyRequests := by
  rfl

/-! ## relay_client: `ClientStream::send_raw`
(src/relay_client/src/websocket/stream.rs) -/

/-- Opaque stand-in for `serde_json::Error`. -/
inductive SerError where
  | mk
deriving DecidableEq

/-- Model of `relay_client::error::ClientError`.  Variants whose payloads are
irrelevant to the modelled code paths carry no payload. -/
inductive ClientError where
  | RequestBuilder
  | WebsocketClient
  | HttpClient
  | ChannelClosed
  | DuplicateRequestId
  | InvalidResponseId
  | InvalidErrorResponse
  | Serialization (e : SerError)
  | Deserialization (e : SerError)
  | Rpc (code : ℤ) (message : String) (data : Option String)
  | InvalidRequestType
deriving DecidableEq

/-- Model of `rpc::Request`, generic over the `Params` payload type. -/
structure RpcRequest (P : Type) where
  id : ℕ
  jsonrpc : String
  params : P

/-- Model of `Request::new`: fills in the JSON RPC version `"2.0"`. -/
def RpcRequest.new {P : Type} (id : ℕ) (params : P) : RpcRequest P :=
  ⟨id, "2.0", params⟩

/-- Model of `rpc::Payload`; only the `Request` arm is exercised by
`send_raw`, the `Response` arm's payload is elided. -/
inductive RpcPayload (P : Type) where
  | Request (req : RpcRequest P)
  | Response

/-- Model of `outbound::OutboundRequest`: the request params plus the
`oneshot::Sender` for the response, identified here by a token. -/
structure OutboundRequest (P : Type) where
  params : P
  tx : ℕ

/-- Model of the `ClientStream` state touched by `send_raw`: the pending
request map (`HashMap<MessageId, oneshot::Sender<…>>`, modelled as an
association list), the outbound frame queue (the `outbound_tx` channel) and
the message ID generator. -/
structure ClientStream (P : Type) where
  requests : List (ℕ × ℕ)
  outboundTx : List String
  idGenerator : MessageIdGenerator

/-- Model of `ClientStream::send_raw`.  `ser` models
`serde_json::to_string`, `timestampMs` the clock reading used by the ID
generator.  The second component reports a value sent immediately on the
request's `tx` channel (`none` when the request was left pending). -/
def ClientStream.sendRaw {P : Type} (ser : RpcPayload P → Except SerError String)
    (st : ClientStream P) (timestampMs : ℕ) (request : OutboundRequest P) :
    ClientStream P × Option (ℕ × ClientError) :=
  match ser (RpcPayload.Request
      (RpcRequest.new (st.idGenerator.nextId timestampMs).1 request.params)) with
  | Except.ok data =>
    match st.requests.lookup (st.idGenerator.nextId timestampMs).1 with
    | some _ =>
      (⟨st.requests, st.outboundTx, (st.idGenerator.nextId timestampMs).2⟩,
        some (request.tx, ClientError.DuplicateRequestId))
    | none =>
      (⟨st.requests ++ [((st.idGenerator.nextId timestampMs).1, request.tx)],
          st.outboundTx ++ [data], (st.idGenerator.nextId timestampMs).2⟩,
        none)
  | Except.error err =>
    (⟨st.requests, st.outboundTx, (st.idGenerator.nextId timestampMs).2⟩,
      some (request.tx, ClientError.Serialization err))

theorem lookup_none_not_mem_keys {l : List (ℕ × ℕ)} {k : ℕ}
    (h : l.lookup k = none) : k ∉ l.map Prod.fst := by
  induction l with
  | nil => simp
  | cons p rest ih =>
    simp only [List.lookup] at h
    by_cases hk : k = p.1
    · rw [hk] at h
      simp at h
    · simp only [List.map_cons, List.mem_cons]
      rintro (h1 | h2)
      · exact hk h1
      · have : rest.lookup k = none := by
          have hbeq : (k == p.1) = false := beq_false_of_ne hk
          rwa [hbeq] at h
        exact (ih this) h2

/-- C6: when serialization succeeds, `send_raw` with a freshly generated ID
already present in the pending map resolves the request with
`DuplicateRequestId` and leaves both the map and the outbound queue
untouched; with a fresh ID it stores the sender and enqueues exactly one
serialized frame; and the pending map's keys stay duplicate-free. -/
theorem clientStream_sendRaw_spec {P : Type}
    (ser : RpcPayload P → Except SerError String) (st : ClientStream P)
    (timestampMs : ℕ) (request : OutboundRequest P) (data : String)
    (hser : ser (RpcPayload.Request
        (RpcRequest.new (st.idGenerator.nextId timestampMs).1 request.params)) =
      Except.ok data) :
    ((st.requests.lookup (st.idGenerator.nextId timestampMs).1).isSome = true →
      (ClientStream.sendRaw ser st timestampMs request).1.requests =
          st.requests ∧
        (ClientStream.sendRaw ser st timestampMs request).1.outboundTx =
          st.outboundTx ∧
        (ClientStream.sendRaw ser st timestampMs request).2 =
          some (request.tx, ClientError.DuplicateRequestId)) ∧
    ((st.requests.lookup (st.idGenerator.nextId timestampMs).1).isSome = false →
      (ClientStream.sendRaw ser st timestampMs request).1.requests =
          st.requests ++
            [((st.idGenerator.nextId timestampMs).1, request.tx)] ∧
        (ClientStream.sendRaw ser st timestampMs request).1.outboundTx =
          st.outboundTx ++ [data] ∧
        (ClientStream.sendRaw ser st timestampMs request).2 = none) ∧
    ((st.requests.map Prod.fst).Nodup →
      ((ClientStream.sendRaw ser st timestampMs request).1.requests.map
        Prod.fst).Nodup) := by
  unfold ClientStream.sendRaw
  rw [hser]
  cases hl : st.requests.lookup (st.idGenerator.nextId timestampMs).1 with
  | some tx0 =>
    refine ⟨fun _ => ⟨rfl, rfl, rfl⟩, fun habs => ?_, fun hnd => hnd⟩
    simp at habs
  | none =>
    refine ⟨fun habs => ?_, fun _ => ⟨rfl, rfl, rfl⟩, fun hnd => ?_⟩
    · simp at habs
    · have hk := lookup_none_not_mem_keys hl
      simp only [List.map_append, List.map_cons, List.map_nil]
      rw [List.nodup_append]
      refine ⟨hnd, List.nodup_singleton _, ?_⟩
      intro a ha hb
      simp only [List.mem_singleton] at hb
      rw [hb] at ha
      exact hk ha

/-- Witness for C6 at a concrete state and request. -/
theorem clientStream_sendRaw_spec_witness :
    ((fun _ => (Except.ok "frame" : Except SerError String)) (RpcPayload.Request
        (RpcRequest.new
          ((⟨[], [], ⟨0⟩⟩ : ClientStream Unit).idGenerator.nextId 1).1 ())) =
      Except.ok "frame") ∧
      (ClientStream.sendRaw
          (fun _ => (Except.ok "frame" : Except SerError String))
          (⟨[], [], ⟨0⟩⟩ : ClientStream Unit) 1 ⟨(), 7⟩).2 = none := by
  refine ⟨rfl, ?_⟩
  exact ((clientStream_sendRaw_spec
      (fun _ => (Except.ok "frame" : Except SerError String))
      (⟨[], [], ⟨0⟩⟩ : ClientStream Unit) 1 ⟨(), 7⟩ "frame" rfl).2.1
    (by rfl)).2.2

/-! ## relay_rpc: `did:key` client ID encoding
(src/relay_rpc/src/domain.rs, src/relay_rpc/src/auth/did.rs) -/

/-- Model of `auth::did::DidError`. -/
inductive DidError where
  | Prefix
  | Method
  | Format
deriving DecidableEq

/-- Model of `domain::ClientIdDecodingError`. -/
inductive ClientIdDecodingError where
  | Base
  | Encoding
  | Header
  | Did (e : DidError)
  | Length
deriving DecidableEq

/-- Errors of the `bs58` crate's fixed-buffer decoder that the source can
observe. -/
inductive Bs58Error where
  | InvalidCharacter
  | BufferTooSmall
deriving DecidableEq

/-- The Bitcoin base58 alphabet used by the `bs58` crate. -/
def base58Alphabet : List Char :=
  ['1', '2', '3', '4', '5', '6', '7', '8', '9',
   'A', 'B', 'C', 'D', 'E', 'F', 'G', 'H', 'J', 'K', 'L', 'M', 'N',
   'P', 'Q', 'R', 'S', 'T', 'U', 'V', 'W', 'X', 'Y', 'Z',
   'a', 'b', 'c', 'd', 'e', 'f', 'g', 'h', 'i', 'j', 'k', 'm', 'n',
   'o', 'p', 'q', 'r', 's', 't', 'u', 'v', 'w', 'x', 'y', 'z']

/-- The character for one base58 digit. -/
def b58Char (d : ℕ) : Char := base58Alphabet.getD d '?'

def b58ValAux : List Char → ℕ → Char → Option ℕ
  | [], _, _ => none
  | a :: rest, i, c => if c = a then some i else b58ValAux rest (i + 1) c

/-- The digit value of one base58 character (`none` when the character is
not in the alphabet). -/
def b58Val (c : Char) : Option ℕ := b58ValAux base58Alphabet 0 c

/-- Number of leading zero entries of a list (used both for leading zero
bytes and for leading `'1'` digits, which carry value 0). -/
def countLeadingZeroBytes : List ℕ → ℕ
  | 0 :: rest => countLeadingZeroBytes rest + 1
  | _ => 0

/-- A byte string read as a big-endian natural number. -/
def beNat (bytes : List ℕ) : ℕ := Nat.ofDigits 256 bytes.reverse

/-- Model of `bs58` encoding: one `'1'` per leading zero byte, then the
base58 digits of the big-endian value, most significant first. -/
def bs58Encode (bytes : List ℕ) : List Char :=
  List.replicate (countLeadingZeroBytes bytes) '1' ++
    ((Nat.digits 58 (beNat bytes)).reverse.map b58Char)

/-- Digit values of a base58 string, `none` on a character outside the
alphabet. -/
def b58Vals : List Char → Option (List ℕ)
  | [] => some []
  | c :: rest =>
    match b58Val c, b58Vals rest with
    | some v, some vs => some (v :: vs)
    | _, _ => none

/-- Model of `bs58::decode(s).into(&mut buf)` for a buffer of `bufLen`
bytes: decodes the digit string into a big-endian byte string with one
leading zero byte per leading `'1'`, failing when a character is invalid or
the result does not fit the buffer. -/
def bs58DecodeInto (s : List Char) (bufLen : ℕ) : Except Bs58Error (List ℕ) :=
  match b58Vals s with
  | none => Except.error Bs58Error.InvalidCharacter
  | some vs =>
    let bytes := List.replicate (countLeadingZeroBytes vs) 0 ++
      (Nat.digits 256 (Nat.ofDigits 58 vs.reverse)).reverse
    if bytes.length > bufLen then Except.error Bs58Error.BufferTooSmall
    else Except.ok bytes

def MULTICODEC_ED25519_HEADER : List ℕ := [237, 1]

def MULTICODEC_ED25519_LENGTH : ℕ := 32

/-- Strips an expected leading segment from a list, `none` when the list
does not start with it (Rust's `strip_prefix`). -/
def stripLeading {α : Type} [DecidableEq α] : List α → List α → Option (List α)
  | [], s => some s
  | _ :: _, [] => none
  | a :: p, b :: s => if a = b then stripLeading p s else none

/-- Model of `auth::did::extract_did_data`: strips `did`, `:`, the method
name, and `:` in turn. -/
def extractDidData (did : List Char) (methodName : List Char) :
    Except DidError (List Char) :=
  match stripLeading ['d', 'i', 'd'] did with
  | none => Except.error DidError.Prefix
  | some r1 =>
    match stripLeading [':'] r1 with
    | none => Except.error DidError.Format
    | some r2 =>
      match stripLeading methodName r2 with
      | none => Except.error DidError.Method
      | some r3 =>
        match stripLeading [':'] r3 with
        | none => Except.error DidError.Format
        | some r4 => Except.ok r4

/-- Model of `FromStr for DecodedClientId`: strips the multibase prefix
`z`, base58-decodes into a 34-byte buffer, checks the decoded length and
the `0xED 0x01` multicodec header, and returns the 32 key bytes. -/
def decodedClientIdFromStr (val : List Char) :
    Except ClientIdDecodingError (List ℕ) :=
  match stripLeading ['z'] val with
  | none => Except.error ClientIdDecodingError.Base
  | some stripped =>
    match bs58DecodeInto stripped (MULTICODEC_ED25519_HEADER.length +
        MULTICODEC_ED25519_LENGTH) with
    | Except.error _ => Except.error ClientIdDecodingError.Encoding
    | Except.ok decoded =>
      if decoded.length ≠ MULTICODEC_ED25519_HEADER.length +
          MULTICODEC_ED25519_LENGTH then
        Except.error ClientIdDecodingError.Length
      else
        match stripLeading MULTICODEC_ED25519_HEADER decoded with
        | none => Except.error ClientIdDecodingError.Header
        | some pubKey => Except.ok pubKey

/-- Model of `Display for DecodedClientId`: base58-encode the
header-prefixed key and prepend the multibase prefix `z`. -/
def decodedClientIdRender (key : List ℕ) : List Char :=
  'z' :: bs58Encode (MULTICODEC_ED25519_HEADER ++ key)

/-- Model of `DecodedClientId::to_did_key`. -/
def toDidKey (key : List ℕ) : List Char :=
  ['d', 'i', 'd', ':', 'k', 'e', 'y', ':'] ++ decodedClientIdRender key

/-- Model of `DecodedClientId::try_from_did_key`. -/
def tryFromDidKey (did : List Char) : Except ClientIdDecodingError (List ℕ) :=
  match extractDidData did ['k', 'e', 'y'] with
  | Except.error e => Except.error (ClientIdDecodingError.Did e)
  | Except.ok data => decodedClientIdFromStr data

theorem b58Val_b58Char : ∀ d, d < 58 → b58Val (b58Char d) = some d := by decide

theorem b58Val_one : b58Val '1' = some 0 := by decide

theorem stripLeading_append {α : Type} [DecidableEq α] (p s : List α) :
    stripLeading p (p ++ s) = some s := by
  induction p with
  | nil => rfl
  | cons a p ih => simp [stripLeading, ih]

theorem ofDigits_replicate_zero (b z : ℕ) :
    Nat.ofDigits b (List.replicate z 0) = 0 := by
  induction z with
  | zero => rfl
  | succ m ih =>
    rw [List.replicate_succ, Nat.ofDigits_cons, ih]
    ring

theorem countLeadingZeroBytes_cons_zero (l : List ℕ) :
    countLeadingZeroBytes (0 :: l) = countLeadingZeroBytes l + 1 := rfl

theorem countLeadingZeroBytes_replicate_append (z : ℕ) (l : List ℕ) :
    countLeadingZeroBytes (List.replicate z 0 ++ l) =
      z + countLeadingZeroBytes l := by
  induction z with
  | zero => simp
  | succ m ih =>
    rw [List.replicate_succ, List.cons_append, countLeadingZeroBytes_cons_zero,
      ih]
    omega

theorem countLeadingZeroBytes_head_ne (x : ℕ) (l : List ℕ) (h : x ≠ 0) :
    countLeadingZeroBytes (x :: l) = 0 := by
  cases x with
  | zero => exact absurd rfl h
  | succ m => rfl

theorem leadingZeros_decomp : ∀ b : List ℕ,
    b = List.replicate (countLeadingZeroBytes b) 0 ++
        b.drop (countLeadingZeroBytes b) ∧
      (b.drop (countLeadingZeroBytes b) = [] ∨
        ∃ x t, b.drop (countLeadingZeroBytes b) = x :: t ∧ x ≠ 0)
  | [] => ⟨rfl, Or.inl rfl⟩
  | 0 :: rest => by
    obtain ⟨ih1, ih2⟩ := leadingZeros_decomp rest
    rw [countLeadingZeroBytes_cons_zero]
    constructor
    · rw [List.replicate_succ, List.cons_append, List.drop_succ_cons]
      exact congrArg (0 :: ·) ih1
    · rw [List.drop_succ_cons]
      exact ih2
  | (x + 1) :: rest => by
    rw [countLeadingZeroBytes_head_ne (x + 1) rest (Nat.succ_ne_zero x)]
    exact ⟨rfl, Or.inr ⟨x + 1, rest, rfl, Nat.succ_ne_zero x⟩⟩

theorem getLast_reverse_cons (x : ℕ) (t : List ℕ) (h : (x :: t).reverse ≠ []) :
    ((x :: t).reverse).getLast h = x := by
  rw [List.getLast_congr h (by simp)
    (show (x :: t).reverse = t.reverse ++ [x] from by simp)]
  exact List.getLast_append _

theorem beNat_replicate_zero_append (z : ℕ) (rest : List ℕ) :
    beNat (List.replicate z 0 ++ rest) = beNat rest := by
  unfold beNat
  rw [List.reverse_append, List.reverse_replicate, Nat.ofDigits_append,
    ofDigits_replicate_zero]
  ring

theorem digits_beNat_of_no_leading_zero (rest : List ℕ)
    (hb : ∀ x ∈ rest, x < 256)
    (hhead : rest = [] ∨ ∃ x t, rest = x :: t ∧ x ≠ 0) :
    (Nat.digits 256 (beNat rest)).reverse = rest := by
  rcases hhead with h | ⟨x, t, hx, hxe⟩
  · subst h
    simp [beNat]
  · subst hx
    unfold beNat
    rw [Nat.digits_ofDigits 256 (by norm_num) (x :: t).reverse
      (fun d hd => hb d (List.mem_reverse.mp hd))
      (fun hne => by rw [getLast_reverse_cons x t hne]; exact hxe)]
    exact List.reverse_reverse _

theorem b58Vals_replicate_one (z : ℕ) (l : List Char) :
    b58Vals (List.replicate z '1' ++ l) =
      (b58Vals l).map (fun vs => List.replicate z 0 ++ vs) := by
  induction z with
  | zero =>
    cases h : b58Vals l <;> simp [h]
  | succ m ih =>
    rw [List.replicate_succ, List.cons_append]
    show (match b58Val '1', b58Vals (List.replicate m '1' ++ l) with
      | some v, some vs => some (v :: vs)
      | _, _ => none) = _
    rw [b58Val_one, ih]
    cases h : b58Vals l with
    | none => rfl
    | some vs => simp [List.replicate_succ]

theorem b58Vals_map_b58Char (ds : List ℕ) (h : ∀ d ∈ ds, d < 58) :
    b58Vals (ds.map b58Char) = some ds := by
  induction ds with
  | nil => rfl
  | cons d t ih =>
    rw [List.map_cons]
    show (match b58Val (b58Char d), b58Vals (t.map b58Char) with
      | some v, some vs => some (v :: vs)
      | _, _ => none) = _
    rw [b58Val_b58Char d (h d (List.mem_cons_self d t)),
      ih (fun x hx => h x (List.mem_cons_of_mem d hx))]

theorem countLeadingZeroBytes_digits58_reverse (n : ℕ) :
    countLeadingZeroBytes ((Nat.digits 58 n).reverse) = 0 := by
  by_cases hn : n = 0
  · subst hn
    rw [Nat.digits_zero]
    rfl
  · cases hd : (Nat.digits 58 n).reverse with
    | nil => rfl
    | cons x t =>
      have hdig : Nat.digits 58 n = t.reverse ++ [x] := by
        have h := congrArg List.reverse hd
        rw [List.reverse_reverse] at h
        rw [h]
        simp
      have hx : x ≠ 0 := by
        have hlast := Nat.getLast_digit_ne_zero 58 hn
        rw [List.getLast_congr _ (by simp) hdig] at hlast
        rwa [List.getLast_append _] at hlast
      exact countLeadingZeroBytes_head_ne x t hx

/-- Decoding a `bs58` encoding into a large enough buffer recovers the
original bytes. -/
theorem bs58DecodeInto_bs58Encode (b : List ℕ) (hb : ∀ x ∈ b, x < 256)
    (bufLen : ℕ) (hlen : b.length ≤ bufLen) :
    bs58DecodeInto (bs58Encode b) bufLen = Except.ok b := by
  obtain ⟨hdecomp, hhead⟩ := leadingZeros_decomp b
  have hdig58 : ∀ d ∈ (Nat.digits 58 (beNat b)).reverse, d < 58 := fun d hd =>
    Nat.digits_lt_base (by norm_num) (List.mem_reverse.mp hd)
  unfold bs58Encode bs58DecodeInto
  rw [b58Vals_replicate_one, b58Vals_map_b58Char _ hdig58]
  simp only [Option.map]
  have hcnt : countLeadingZeroBytes
      (List.replicate (countLeadingZeroBytes b) 0 ++
        (Nat.digits 58 (beNat b)).reverse) = countLeadingZeroBytes b := by
    rw [countLeadingZeroBytes_replicate_append,
      countLeadingZeroBytes_digits58_reverse]
    omega
  have hval : Nat.ofDigits 58
      (List.replicate (countLeadingZeroBytes b) 0 ++
        (Nat.digits 58 (beNat b)).reverse).reverse = beNat b := by
    rw [List.reverse_append, List.reverse_replicate, Nat.ofDigits_append,
      ofDigits_replicate_zero, List.reverse_reverse, Nat.ofDigits_digits]
    ring
  have hrest : (Nat.digits 256 (beNat b)).reverse =
      b.drop (countLeadingZeroBytes b) := by
    have hbn : beNat b = beNat (b.drop (countLeadingZeroBytes b)) := by
      conv_lhs => rw [hdecomp]
      rw [beNat_replicate_zero_append]
    rw [hbn]
    exact digits_beNat_of_no_leading_zero _
      (fun x hx => hb x (List.mem_of_mem_drop hx)) hhead
  rw [hcnt, hval, hrest, ← hdecomp]
  rw [if_neg (by omega)]

theorem extractDidData_did_key (s : List Char) :
    extractDidData (['d', 'i', 'd', ':', 'k', 'e', 'y', ':'] ++ s)
      ['k', 'e', 'y'] = Except.ok s := by
  simp [extractDidData, stripLeading]

theorem tryFromDidKey_strip (s : List Char) :
    tryFromDidKey (['d', 'i', 'd', ':', 'k', 'e', 'y', ':'] ++ s) =
      decodedClientIdFromStr s := by
  unfold tryFromDidKey
  rw [extractDidData_did_key]

theorem decodedClientIdFromStr_decoded (s : List Char) (bytes : List ℕ)
    (hdec : bs58DecodeInto s (MULTICODEC_ED25519_HEADER.length +
        MULTICODEC_ED25519_LENGTH) = Except.ok bytes)
    (hblen : bytes.length = 34) :
    decodedClientIdFromStr ('z' :: s) =
      (match stripLeading MULTICODEC_ED25519_HEADER bytes with
       | none => Except.error ClientIdDecodingError.Header
       | some pubKey => Except.ok pubKey) := by
  unfold decodedClientIdFromStr
  rw [show stripLeading ['z'] ('z' :: s) = some s from by simp [stripLeading]]
  simp only [hdec]
  rw [if_neg (by
    rw [hblen]
    simp [MULTICODEC_ED25519_HEADER, MULTICODEC_ED25519_LENGTH])]

theorem stripLeading_two_ne (a₁ a₂ : ℕ) (l : List ℕ) (hlen : 2 ≤ l.length)
    (h : l.take 2 ≠ [a₁, a₂]) : stripLeading [a₁, a₂] l = none := by
  match l with
  | [] => simp at hlen
  | [x] => simp at hlen
  | x :: y :: t =>
    simp only [List.take_succ_cons, List.take_zero] at h
    unfold stripLeading
    by_cases h1 : a₁ = x
    · subst h1
      rw [if_pos rfl]
      unfold stripLeading
      by_cases h2 : a₂ = y
      · subst h2
        exact absurd rfl h
      · rw [if_neg h2]
    · rw [if_neg h1]

/-- C8: rendering a 32-byte Ed25519 public key as
`did:key:z<base58btc(0xED 0x01 ‖ key)>` and decoding it back yields the
original bytes, and decoding a `did:key` whose two decoded multicodec header
bytes differ from `0xED 0x01` fails with the `Header` error. -/
theorem didKey_round_trip :
    (∀ key : List ℕ, key.length = 32 → (∀ x ∈ key, x < 256) →
      tryFromDidKey (toDidKey key) = Except.ok key) ∧
    (∀ b : List ℕ, b.length = 34 → (∀ x ∈ b, x < 256) →
      b.take 2 ≠ MULTICODEC_ED25519_HEADER →
      tryFromDidKey (['d', 'i', 'd', ':', 'k', 'e', 'y', ':'] ++
          'z' :: bs58Encode b) =
        Except.error ClientIdDecodingError.Header) := by
  constructor
  · intro key hk hbound
    have hb : ∀ x ∈ MULTICODEC_ED25519_HEADER ++ key, x < 256 := by
      intro x hx
      rcases List.mem_append.mp hx with hx | hx
      · simp [MULTICODEC_ED25519_HEADER] at hx
        rcases hx with hx | hx <;> omega
      · exact hbound x hx
    have hlen34 : (MULTICODEC_ED25519_HEADER ++ key).length = 34 := by
      simp [MULTICODEC_ED25519_HEADER, hk]
    have hdec := bs58DecodeInto_bs58Encode (MULTICODEC_ED25519_HEADER ++ key)
      hb (MULTICODEC_ED25519_HEADER.length + MULTICODEC_ED25519_LENGTH)
      (by rw [hlen34]; simp [MULTICODEC_ED25519_HEADER, MULTICODEC_ED25519_LENGTH])
    rw [show toDidKey key = ['d', 'i', 'd', ':', 'k', 'e', 'y', ':'] ++
        'z' :: bs58Encode (MULTICODEC_ED25519_HEADER ++ key) from rfl]
    rw [tryFromDidKey_strip]
    rw [decodedClientIdFromStr_decoded _ _ hdec hlen34]
    rw [stripLeading_append]
  · intro b hblen hbound hne
    have hdec := bs58DecodeInto_bs58Encode b hbound
      (MULTICODEC_ED25519_HEADER.length + MULTICODEC_ED25519_LENGTH)
      (by rw [hblen]; simp [MULTICODEC_ED25519_HEADER, MULTICODEC_ED25519_LENGTH])
    rw [tryFromDidKey_strip]
    rw [decodedClientIdFromStr_decoded _ _ hdec hblen]
    rw [show (MULTICODEC_ED25519_HEADER : List ℕ) = [237, 1] from rfl] at hne ⊢
    rw [stripLeading_two_ne 237 1 b (by omega) hne]

/-- Witness for C8 at the all-zero 32-byte key. -/
theorem didKey_round_trip_witness :
    ((List.replicate 32 (0 : ℕ)).length = 32 ∧
      (∀ x ∈ List.replicate 32 (0 : ℕ), x < 256)) ∧
      tryFromDidKey (toDidKey (List.replicate 32 0)) =
        Except.ok (List.replicate 32 0) :=
  ⟨⟨by decide, by decide⟩,
    didKey_round_trip.1 (List.replicate 32 0) (by decide) (by decide)⟩

/-! ## sign_api: pairing URI parsing (src/sign_api/src/pairing_uri.rs)

The `url` crate is modelled for URLs without an authority component
(`scheme:path[?query][#fragment]` with no `//`), which covers EIP-1328
pairing URIs; percent-decoding of the query follows
`form_urlencoded` (`+` becomes a space, valid `%XX` escapes are decoded,
invalid escapes are kept verbatim). -/

/-- Model of `pairing_uri::ParseError` (the `Url` and `InvalidKey` payloads
are collapsed). -/
inductive PairingParseError where
  | UnexpectedProtocol (protocol : List Char)
  | Url
  | InvalidTopicAndVersion
  | TopicNotFound
  | VersionNotFound
  | RelayProtocolNotFound
  | KeyNotFound
  | InvalidKey
  | UnexpectedParameter (k v : List Char)
deriving DecidableEq

/-- Model of `pairing_uri::Params`. -/
structure PairingParams where
  relayProtocol : List Char
  symKey : List ℕ
  relayData : Option (List Char)
deriving DecidableEq

/-- Model of `pairing_uri::Pairing`. -/
structure Pairing where
  topic : List Char
  version : List Char
  params : PairingParams
deriving DecidableEq

/-- Splits a list at the first occurrence of `sep`; `none` when absent. -/
def splitAtFirst (sep : Char) : List Char → Option (List Char × List Char)
  | [] => none
  | c :: rest =>
    if c = sep then some ([], rest)
    else
      match splitAtFirst sep rest with
      | none => none
      | some (l, r) => some (c :: l, r)

/-- Splits a list on every occurrence of `sep` (keeping empty segments). -/
def splitOnChar (sep : Char) : List Char → List (List Char)
  | [] => [[]]
  | c :: rest =>
    if c = sep then [] :: splitOnChar sep rest
    else
      match splitOnChar sep rest with
      | [] => [[c]]
      | seg :: segs => (c :: seg) :: segs

/-- ASCII characters allowed in a URL scheme after the first. -/
def isSchemeChar (c : Char) : Bool :=
  c.isAlphanum || c = '+' || c = '-' || c = '.'

inductive UrlError where
  | Parse
deriving DecidableEq

/-- Model of a parsed `url::Url` restricted to the fields the pairing parser
reads. -/
structure UrlModel where
  scheme : List Char
  path : List Char
  query : Option (List Char)
deriving DecidableEq

/-- Model of `Url::from_str` for URLs without an authority: validates and
lowercases the scheme, drops a fragment, and splits the rest into the opaque
path and the query. -/
def urlFromStr (s : List Char) : Except UrlError UrlModel :=
  match splitAtFirst ':' s with
  | none => Except.error UrlError.Parse
  | some (schemeRaw, rest) =>
    if schemeRaw ≠ [] ∧ schemeRaw.all isSchemeChar = true ∧
        (schemeRaw.headD 'x').isAlpha = true then
      if rest.take 2 = ['/', '/'] then Except.error UrlError.Parse
      else
        match splitAtFirst '?' (rest.takeWhile (· != '#')) with
        | none =>
          Except.ok ⟨schemeRaw.map Char.toLower, rest.takeWhile (· != '#'),
            none⟩
        | some (p, q) =>
          Except.ok ⟨schemeRaw.map Char.toLower, p, some q⟩
    else Except.error UrlError.Parse

/-- Model of `form_urlencoded` percent-decoding with `+` as space. -/
def percentDecodePlus : List Char → List Char
  | [] => []
  | '%' :: c1 :: c2 :: rest =>
    match hexVal c1, hexVal c2 with
    | some v1, some v2 => Char.ofNat (v1 * 16 + v2) :: percentDecodePlus rest
    | _, _ => '%' :: percentDecodePlus (c1 :: c2 :: rest)
  | '+' :: rest => ' ' :: percentDecodePlus rest
  | c :: rest => c :: percentDecodePlus rest

/-- Model of `Url::query_pairs`: splits the query on `&`, skips empty
segments, splits each segment at the first `=` (empty value when absent)
and percent-decodes keys and values. -/
def queryPairs (q : Option (List Char)) : List (List Char × List Char) :=
  match q with
  | none => []
  | some qs =>
    ((splitOnChar '&' qs).filter (· ≠ [])).map fun seg =>
      match splitAtFirst '=' seg with
      | some (k, v) => (percentDecodePlus k, percentDecodePlus v)
      | none => (percentDecodePlus seg, [])

/-- A `[[:word:]-]` character of the topic regex. -/
def isWordDash (c : Char) : Bool := c.isAlphanum || c = '_' || c = '-'

/-- Model of `Pairing::parse_topic_and_version`: the anchored regex
`^(?P<topic>[[:word:]-]+)@(?P<version>\x7bdigits\x7d+)$` matches exactly when
the path is `topic@version` with one `@`, a nonempty word/dash topic and a
nonempty digit version. -/
def parseTopicAndVersion (path : List Char) :
    Except PairingParseError (List Char × List Char) :=
  match splitOnChar '@' path with
  | [t, v] =>
    if t ≠ [] ∧ t.all isWordDash = true ∧ v ≠ [] ∧
        v.all Char.isDigit = true then
      Except.ok (t, v)
    else Except.error PairingParseError.InvalidTopicAndVersion
  | _ => Except.error PairingParseError.InvalidTopicAndVersion

/-- The query-pair folding loop of `Pairing::parse_params`. -/
def parseParamsLoop : List (List Char × List Char) → Option (List Char) →
    Option (List Char) → Option (List Char) →
    Except PairingParseError
      (Option (List Char) × Option (List Char) × Option (List Char))
  | [], rp, sk, rd => Except.ok (rp, sk, rd)
  | (k, v) :: rest, rp, sk, rd =>
    if k = "relay-protocol".toList then parseParamsLoop rest (some v) sk rd
    else if k = "symKey".toList then parseParamsLoop rest rp (some v) rd
    else if k = "relay-data".toList then parseParamsLoop rest rp sk (some v)
    else Except.error (PairingParseError.UnexpectedParameter k v)

/-- Model of `Pairing::parse_params`: requires `relay-protocol` and
`symKey`, hex-decodes the key (with no length constraint), keeps
`relay-data` optional. -/
def parseParams (url : UrlModel) : Except PairingParseError PairingParams :=
  match parseParamsLoop (queryPairs url.query) none none none with
  | Except.error e => Except.error e
  | Except.ok (rp, sk, rd) =>
    match rp with
    | none => Except.error PairingParseError.RelayProtocolNotFound
    | some rpv =>
      match sk with
      | none => Except.error PairingParseError.KeyNotFound
      | some skv =>
        match hexDecodeBytes skv with
        | none => Except.error PairingParseError.InvalidKey
        | some bytes => Except.ok ⟨rpv, bytes, rd⟩

/-- Model of `FromStr for Pairing`. -/
def pairingFromStr (s : List Char) : Except PairingParseError Pairing :=
  match urlFromStr s with
  | Except.error _ => Except.error PairingParseError.Url
  | Except.ok url =>
    if url.scheme ≠ "wc".toList then
      Except.error (PairingParseError.UnexpectedProtocol url.scheme)
    else
      match parseTopicAndVersion url.path with
      | Except.error e => Except.error e
      | Except.ok (t, v) =>
        match parseParams url with
        | Except.error e => Except.error e
        | Except.ok ps => Except.ok ⟨t, v, ps⟩

/-- C5 counterexample: a pairing URI with a 4-hex-character `symKey` parses
successfully, and the resulting `sym_key` holds 2 bytes, not 32. -/
theorem pairingFromStr_short_symKey :
    pairingFromStr "wc:aa@2?relay-protocol=irn&symKey=aabb".toList =
      Except.ok ⟨"aa".toList, "2".toList, ⟨"irn".toList, [170, 187], none⟩⟩ ∧
      ([170, 187] : List ℕ).length ≠ 32 := by
  constructor
  · decide
  · decide

theorem splitAtFirst_append (sep : Char) (l1 l2 : List Char)
    (h : sep ∉ l1) : splitAtFirst sep (l1 ++ sep :: l2) = some (l1, l2) := by
  induction l1 with
  | nil => simp [splitAtFirst]
  | cons a t ih =>
    have ha : a ≠ sep := fun hc => h (hc ▸ List.mem_cons_self a t)
    rw [List.cons_append]
    unfold splitAtFirst
    rw [if_neg ha, ih (fun hm => h (List.mem_cons_of_mem a hm))]

theorem takeWhile_of_all (p : Char → Bool) (l : List Char)
    (h : l.all p = true) : l.takeWhile p = l := by
  induction l with
  | nil => rfl
  | cons a t ih =>
    simp only [List.all_cons, Bool.and_eq_true] at h
    simp [List.takeWhile_cons, h.1, ih h.2]

theorem splitOnChar_no_sep (sep : Char) (l : List Char) (h : sep ∉ l) :
    splitOnChar sep l = [l] := by
  induction l with
  | nil => rfl
  | cons a t ih =>
    have ha : a ≠ sep := fun hc => h (hc ▸ List.mem_cons_self a t)
    unfold splitOnChar
    rw [if_neg ha, ih (fun hm => h (List.mem_cons_of_mem a hm))]

theorem splitOnChar_append (sep : Char) (l1 l2 : List Char) (h : sep ∉ l1) :
    splitOnChar sep (l1 ++ sep :: l2) = l1 :: splitOnChar sep l2 := by
  induction l1 with
  | nil => simp [splitOnChar]
  | cons a t ih =>
    have ha : a ≠ sep := fun hc => h (hc ▸ List.mem_cons_self a t)
    rw [List.cons_append]
    generalize hX : splitOnChar sep l2 = X
    unfold splitOnChar
    rw [if_neg ha, ih (fun hm => h (List.mem_cons_of_mem a hm)), hX]

theorem percentDecodePlus_id (l : List Char)
    (h : ∀ c ∈ l, c ≠ '%' ∧ c ≠ '+') : percentDecodePlus l = l := by
  induction l with
  | nil => rfl
  | cons a t ih =>
    obtain ⟨ha1, ha2⟩ := h a (List.mem_cons_self a t)
    have ht := fun c hc => (h c (List.mem_cons_of_mem a hc))
    rw [percentDecodePlus.eq_def]
    split
    · simp_all
    · simp_all
    · simp_all
    · rename_i heq
      injection heq with h1 h2
      subst h1
      subst h2
      rw [ih ht]

theorem hexDecodeBytes_all_isSome : ∀ (l : List Char) (bs : List ℕ),
    hexDecodeBytes l = some bs → ∀ c ∈ l, (hexVal c).isSome = true
  | [], _, _, c, hc => absurd hc (List.not_mem_nil c)
  | [_], _, h, _, _ => by simp [hexDecodeBytes] at h
  | c1 :: c2 :: rest, bs, h, c, hc => by
    revert h
    unfold hexDecodeBytes
    cases h1 : hexVal c1 with
    | none => intro h; exact absurd h (by simp)
    | some v1 =>
      cases h2 : hexVal c2 with
      | none => intro h; exact absurd h (by simp)
      | some v2 =>
        cases h3 : hexDecodeBytes rest with
        | none => intro h; exact absurd h (by simp)
        | some bs' =>
          intro _
          rcases hc with _ | ⟨_, hc⟩
          · simp [h1]
          · rcases hc with _ | ⟨_, hc⟩
            · simp [h2]
            · exact hexDecodeBytes_all_isSome rest bs' h3 c hc

theorem hexDecodeBytes_length : ∀ (l : List Char) (bs : List ℕ),
    hexDecodeBytes l = some bs → 2 * bs.length = l.length
  | [], bs, h => by
    simp [hexDecodeBytes] at h
    simp [← h]
  | [_], _, h => by simp [hexDecodeBytes] at h
  | c1 :: c2 :: rest, bs, h => by
    revert h
    unfold hexDecodeBytes
    cases h1 : hexVal c1 with
    | none => intro h; exact absurd h (by simp)
    | some v1 =>
      cases h2 : hexVal c2 with
      | none => intro h; exact absurd h (by simp)
      | some v2 =>
        cases h3 : hexDecodeBytes rest with
        | none => intro h; exact absurd h (by simp)
        | some bs' =>
          intro h
          simp only [Option.some.injEq] at h
          have := hexDecodeBytes_length rest bs' h3
          subst h
          simp only [List.length_cons]
          omega

theorem hexVal_isSome_excl (c : Char) (h : (hexVal c).isSome = true) :
    c ≠ '&' ∧ c ≠ '#' ∧ c ≠ '%' ∧ c ≠ '+' := by
  refine ⟨?_, ?_, ?_, ?_⟩ <;> rintro rfl <;> revert h <;> decide

theorem isAlphanum_excl (c : Char) (h : c.isAlphanum = true) :
    c ≠ '&' ∧ c ≠ '#' ∧ c ≠ '%' ∧ c ≠ '+' := by
  refine ⟨?_, ?_, ?_, ?_⟩ <;> rintro rfl <;> revert h <;> decide

theorem isWordDash_excl (c : Char) (h : isWordDash c = true) :
    c ≠ '@' ∧ c ≠ '?' ∧ c ≠ '#' ∧ c ≠ '/' ∧ c ≠ ':' := by
  refine ⟨?_, ?_, ?_, ?_, ?_⟩ <;> rintro rfl <;> revert h <;> decide

theorem isDigit_excl (c : Char) (h : c.isDigit = true) :
    c ≠ '@' ∧ c ≠ '?' ∧ c ≠ '#' ∧ c ≠ '/' := by
  refine ⟨?_, ?_, ?_, ?_⟩ <;> rintro rfl <;> revert h <;> decide

/-- Evaluation of the modelled `Url::from_str` on a `wc:` URI whose path and
query avoid the structural characters. -/
theorem urlFromStr_wc (path query : List Char)
    (htake : (path ++ '?' :: query).take 2 ≠ ['/', '/'])
    (hfragp : '#' ∉ path) (hfragq : '#' ∉ query) (hqm : '?' ∉ path) :
    urlFromStr (['w', 'c', ':'] ++ (path ++ '?' :: query)) =
      Except.ok ⟨['w', 'c'], path, some query⟩ := by
  have hsplitcolon : splitAtFirst ':' (['w', 'c', ':'] ++ (path ++ '?' :: query)) =
      some (['w', 'c'], path ++ '?' :: query) :=
    splitAtFirst_append ':' ['w', 'c'] _ (by decide)
  have hfrag : (path ++ '?' :: query).takeWhile (· != '#') =
      path ++ '?' :: query := by
    apply takeWhile_of_all
    rw [List.all_eq_true]
    intro c hc
    rcases List.mem_append.mp hc with hc | hc
    · simp only [bne_iff_ne, ne_eq, decide_eq_true_eq]
      exact fun hcc => hfragp (hcc ▸ hc)
    · rcases hc with _ | ⟨_, hc⟩
      · decide
      · simp only [bne_iff_ne, ne_eq, decide_eq_true_eq]
        exact fun hcc => hfragq (hcc ▸ hc)
  have hsplitq : splitAtFirst '?' (path ++ '?' :: query) = some (path, query) :=
    splitAtFirst_append '?' path query hqm
  have hlower : List.map Char.toLower ['w', 'c'] = ['w', 'c'] := by decide
  simp only [urlFromStr, hsplitcolon, hfrag, hsplitq, hlower, ne_eq]
  simp [htake]
  decide

/-- Evaluation of the modelled topic/version regex on a well-formed path. -/
theorem parseTopicAndVersion_ok (topic ver : List Char)
    (htopic : topic ≠ [] ∧ topic.all isWordDash = true)
    (hver : ver ≠ [] ∧ ver.all Char.isDigit = true) :
    parseTopicAndVersion (topic ++ '@' :: ver) = Except.ok (topic, ver) := by
  have hat1 : '@' ∉ topic := fun hm =>
    (isWordDash_excl '@' (List.all_eq_true.mp htopic.2 '@' hm)).1 rfl
  have hat2 : '@' ∉ ver := fun hm =>
    (isDigit_excl '@' (List.all_eq_true.mp hver.2 '@' hm)).1 rfl
  simp only [parseTopicAndVersion, splitOnChar_append '@' topic ver hat1,
    splitOnChar_no_sep '@' ver hat2]
  rw [if_pos ⟨htopic.1, htopic.2, hver.1, hver.2⟩]

/-- Evaluation of the modelled `query_pairs` on the two-parameter query
`relay-protocol=<proto>&symKey=<hex>`. -/
theorem queryPairs_two (proto skHex : List Char)
    (hproto : proto.all Char.isAlphanum = true)
    (hskc : ∀ c ∈ skHex, (hexVal c).isSome = true) :
    queryPairs (some
        ((['r', 'e', 'l', 'a', 'y', '-', 'p', 'r', 'o', 't', 'o', 'c', 'o', 'l']
            ++ '=' :: proto) ++ '&' ::
          (['s', 'y', 'm', 'K', 'e', 'y'] ++ '=' :: skHex))) =
      [(['r', 'e', 'l', 'a', 'y', '-', 'p', 'r', 'o', 't', 'o', 'c', 'o', 'l'],
          proto),
        (['s', 'y', 'm', 'K', 'e', 'y'], skHex)] := by
  have hamp1 : '&' ∉
      (['r', 'e', 'l', 'a', 'y', '-', 'p', 'r', 'o', 't', 'o', 'c', 'o', 'l']
        ++ '=' :: proto) := by
    intro hm
    rcases List.mem_append.mp hm with hm | hm
    · revert hm
      decide
    · rcases List.mem_cons.mp hm with hm | hm
      · exact absurd hm (by decide)
      · exact (isAlphanum_excl '&' (List.all_eq_true.mp hproto '&' hm)).1 rfl
  have hamp2 : '&' ∉ (['s', 'y', 'm', 'K', 'e', 'y'] ++ '=' :: skHex) := by
    intro hm
    rcases List.mem_append.mp hm with hm | hm
    · revert hm
      decide
    · rcases List.mem_cons.mp hm with hm | hm
      · exact absurd hm (by decide)
      · exact (hexVal_isSome_excl '&' (hskc '&' hm)).1 rfl
  have hsp1 : splitAtFirst '='
      (['r', 'e', 'l', 'a', 'y', '-', 'p', 'r', 'o', 't', 'o', 'c', 'o', 'l']
        ++ '=' :: proto) =
      some (['r', 'e', 'l', 'a', 'y', '-', 'p', 'r', 'o', 't', 'o', 'c', 'o',
        'l'], proto) :=
    splitAtFirst_append '=' _ _ (by decide)
  have hsp2 : splitAtFirst '=' (['s', 'y', 'm', 'K', 'e', 'y'] ++ '=' :: skHex)
      = some (['s', 'y', 'm', 'K', 'e', 'y'], skHex) :=
    splitAtFirst_append '=' _ _ (by decide)
  have hpd1 : percentDecodePlus
      ['r', 'e', 'l', 'a', 'y', '-', 'p', 'r', 'o', 't', 'o', 'c', 'o', 'l'] =
      ['r', 'e', 'l', 'a', 'y', '-', 'p', 'r', 'o', 't', 'o', 'c', 'o', 'l'] :=
    by decide
  have hpd2 : percentDecodePlus ['s', 'y', 'm', 'K', 'e', 'y'] =
      ['s', 'y', 'm', 'K', 'e', 'y'] := by decide
  have hpdp : percentDecodePlus proto = proto :=
    percentDecodePlus_id proto fun c hc =>
      ⟨(isAlphanum_excl c (List.all_eq_true.mp hproto c hc)).2.2.1,
        (isAlphanum_excl c (List.all_eq_true.mp hproto c hc)).2.2.2⟩
  have hpds : percentDecodePlus skHex = skHex :=
    percentDecodePlus_id skHex fun c hc =>
      ⟨(hexVal_isSome_excl c (hskc c hc)).2.2.1,
        (hexVal_isSome_excl c (hskc c hc)).2.2.2⟩
  simp only [queryPairs, splitOnChar_append '&' _ _ hamp1,
    splitOnChar_no_sep '&' _ hamp2, List.filter, hsp1, hsp2, hpd1, hpd2,
    hpdp, hpds, List.map]

/-- C5 (amended): a `wc:` pairing URI with a well-formed topic, version and
relay protocol parses successfully for *every* symKey value that hex-decodes,
and the resulting `sym_key` holds exactly half as many bytes as the symKey
parameter has characters; no 32-byte length constraint is enforced. -/
theorem pairingFromStr_symKey_bytes (topic ver proto skHex : List Char)
    (bytes : List ℕ)
    (htopic : topic ≠ [] ∧ topic.all isWordDash = true)
    (hver : ver ≠ [] ∧ ver.all Char.isDigit = true)
    (hproto : proto.all Char.isAlphanum = true)
    (hsk : hexDecodeBytes skHex = some bytes) :
    pairingFromStr (['w', 'c', ':'] ++
        ((topic ++ '@' :: ver) ++ '?' ::
          ((['r', 'e', 'l', 'a', 'y', '-', 'p', 'r', 'o', 't', 'o', 'c', 'o',
              'l'] ++ '=' :: proto) ++ '&' ::
            (['s', 'y', 'm', 'K', 'e', 'y'] ++ '=' :: skHex)))) =
      Except.ok ⟨topic, ver, ⟨proto, bytes, none⟩⟩ ∧
    2 * bytes.length = skHex.length := by
  have hskc := hexDecodeBytes_all_isSome skHex bytes hsk
  have htopicall := List.all_eq_true.mp htopic.2
  have hverall := List.all_eq_true.mp hver.2
  have hprotoall := List.all_eq_true.mp hproto
  have htake : ((topic ++ '@' :: ver) ++ '?' ::
      ((['r', 'e', 'l', 'a', 'y', '-', 'p', 'r', 'o', 't', 'o', 'c', 'o',
          'l'] ++ '=' :: proto) ++ '&' ::
        (['s', 'y', 'm', 'K', 'e', 'y'] ++ '=' :: skHex))).take 2 ≠
      ['/', '/'] := by
    cases topic with
    | nil => exact absurd rfl htopic.1
    | cons a rest =>
      have ha : a ≠ '/' :=
        (isWordDash_excl a (List.all_eq_true.mp htopic.2 a
          (List.mem_cons_self a rest))).2.2.2.1
      intro h
      rw [List.cons_append, List.cons_append, List.take_succ_cons] at h
      injection h with h1 _
      exact ha h1
  have hfragp : '#' ∉ topic ++ '@' :: ver := by
    intro hm
    rcases List.mem_append.mp hm with hm | hm
    · exact (isWordDash_excl '#' (htopicall '#' hm)).2.2.1 rfl
    · rcases List.mem_cons.mp hm with hm | hm
      · exact absurd hm (by decide)
      · exact (isDigit_excl '#' (hverall '#' hm)).2.2.1 rfl
  have hfragq : '#' ∉
      ((['r', 'e', 'l', 'a', 'y', '-', 'p', 'r', 'o', 't', 'o', 'c', 'o',
          'l'] ++ '=' :: proto) ++ '&' ::
        (['s', 'y', 'm', 'K', 'e', 'y'] ++ '=' :: skHex)) := by
    intro hm
    rcases List.mem_append.mp hm with hm | hm
    · rcases List.mem_append.mp hm with hm | hm
      · revert hm
        decide
      · rcases List.mem_cons.mp hm with hm | hm
        · exact absurd hm (by decide)
        · exact (isAlphanum_excl '#' (hprotoall '#' hm)).2.1 rfl
    · rcases List.mem_cons.mp hm with hm | hm
      · exact absurd hm (by decide)
      · rcases List.mem_append.mp hm with hm | hm
        · revert hm
          decide
        · rcases List.mem_cons.mp hm with hm | hm
          · exact absurd hm (by decide)
          · exact (hexVal_isSome_excl '#' (hskc '#' hm)).2.1 rfl
  have hqm : '?' ∉ topic ++ '@' :: ver := by
    intro hm
    rcases List.mem_append.mp hm with hm | hm
    · exact (isWordDash_excl '?' (htopicall '?' hm)).2.1 rfl
    · rcases List.mem_cons.mp hm with hm | hm
      · exact absurd hm (by decide)
      · exact (isDigit_excl '?' (hverall '?' hm)).2.1 rfl
  refine ⟨?_, hexDecodeBytes_length skHex bytes hsk⟩
  simp only [pairingFromStr, urlFromStr_wc _ _ htake hfragp hfragq hqm]
  rw [if_neg (by decide)]
  simp only [parseTopicAndVersion_ok topic ver htopic hver]
  simp only [parseParams, queryPairs_two proto skHex hproto hskc]
  rw [show parseParamsLoop
      [(['r', 'e', 'l', 'a', 'y', '-', 'p', 'r', 'o', 't', 'o', 'c', 'o', 'l'],
          proto),
        (['s', 'y', 'm', 'K', 'e', 'y'], skHex)] none none none =
      Except.ok (some proto, some skHex, none) from rfl]
  simp only [hsk]

/-- Witness for the amended C5 at a concrete URI with a 64-hex-char key. -/
theorem pairingFromStr_symKey_bytes_witness :
    (['a', 'a'] ≠ ([] : List Char) ∧ ['a', 'a'].all isWordDash = true) ∧
      (pairingFromStr (['w', 'c', ':'] ++
          ((['a', 'a'] ++ '@' :: ['2']) ++ '?' ::
            ((['r', 'e', 'l', 'a', 'y', '-', 'p', 'r', 'o', 't', 'o', 'c',
                'o', 'l'] ++ '=' :: ['i', 'r', 'n']) ++ '&' ::
              (['s', 'y', 'm', 'K', 'e', 'y'] ++ '=' ::
                List.replicate 64 'a')))) =
        Except.ok ⟨['a', 'a'], ['2'],
          ⟨['i', 'r', 'n'], List.replicate 32 170, none⟩⟩ ∧
      2 * (List.replicate 32 (170 : ℕ)).length =
        (List.replicate 64 'a').length) :=
  ⟨⟨by decide, by decide⟩,
    pairingFromStr_symKey_bytes ['a', 'a'] ['2'] ['i', 'r', 'n']
      (List.replicate 64 'a') (List.replicate 32 170)
      ⟨by decide, by decide⟩ ⟨by decide, by decide⟩ (by decide) (by decide)⟩

/-! ## sign_api: payload encoding and encryption
(src/sign_api/src/crypto/payload.rs)

The `base64` crate's standard padded engine, the `chacha20poly1305` AEAD
(RFC 8439) and Rust's `String::from_utf8` UTF-8 validation are modelled
byte-exactly; the random nonce of `encrypt_and_encode` is passed in as an
argument. -/

/-- Errors of the `base64` crate's strict decoder that the model can
produce. -/
inductive B64DecodeError where
  | InvalidByte
  | InvalidLength
  | InvalidLastSymbol
deriving DecidableEq

/-- The standard base64 alphabet. -/
def b64Alphabet : List Char :=
  ['A', 'B', 'C', 'D', 'E', 'F', 'G', 'H', 'I', 'J', 'K', 'L', 'M',
   'N', 'O', 'P', 'Q', 'R', 'S', 'T', 'U', 'V', 'W', 'X', 'Y', 'Z',
   'a', 'b', 'c', 'd', 'e', 'f', 'g', 'h', 'i', 'j', 'k', 'l', 'm',
   'n', 'o', 'p', 'q', 'r', 's', 't', 'u', 'v', 'w', 'x', 'y', 'z',
   '0', '1', '2', '3', '4', '5', '6', '7', '8', '9', '+', '/']

/-- The character of one base64 digit. -/
def b64chr (v : ℕ) : Char := b64Alphabet.getD v '?'

def b64valAux : List Char → ℕ → Char → Option ℕ
  | [], _, _ => none
  | a :: rest, i, c => if c = a then some i else b64valAux rest (i + 1) c

/-- The digit value of one base64 character. -/
def b64val (c : Char) : Option ℕ := b64valAux b64Alphabet 0 c

/-- Model of standard padded base64 encoding (`BASE64_STANDARD.encode`). -/
def b64encode : List ℕ → List Char
  | [] => []
  | [a] => [b64chr (a / 4), b64chr (a % 4 * 16), '=', '=']
  | [a, b] => [b64chr (a / 4), b64chr (a % 4 * 16 + b / 16),
      b64chr (b % 16 * 4), '=']
  | a :: b :: c :: rest =>
    b64chr (a / 4) :: b64chr (a % 4 * 16 + b / 16) ::
      b64chr (b % 16 * 4 + c / 64) :: b64chr (c % 64) :: b64encode rest

/-- Model of standard padded base64 decoding (`BASE64_STANDARD.decode`):
requires four-character blocks, padding only at the end, and canonical
(zero) trailing bits. -/
def b64decode : List Char → Except B64DecodeError (List ℕ)
  | [] => Except.ok []
  | c1 :: c2 :: c3 :: c4 :: rest =>
    match b64val c1, b64val c2 with
    | some v1, some v2 =>
      if rest = [] ∧ c4 = '=' then
        if c3 = '=' then
          if v2 % 16 = 0 then Except.ok [v1 * 4 + v2 / 16]
          else Except.error B64DecodeError.InvalidLastSymbol
        else
          match b64val c3 with
          | some v3 =>
            if v3 % 4 = 0 then
              Except.ok [v1 * 4 + v2 / 16, v2 % 16 * 16 + v3 / 4]
            else Except.error B64DecodeError.InvalidLastSymbol
          | none => Except.error B64DecodeError.InvalidByte
      else
        match b64val c3, b64val c4 with
        | some v3, some v4 =>
          match b64decode rest with
          | Except.ok bs =>
            Except.ok ([v1 * 4 + v2 / 16, v2 % 16 * 16 + v3 / 4,
              v3 % 4 * 64 + v4] ++ bs)
          | Except.error e => Except.error e
        | _, _ => Except.error B64DecodeError.InvalidByte
    | _, _ => Except.error B64DecodeError.InvalidByte
  | _ => Except.error B64DecodeError.InvalidLength

theorem b64val_b64chr : ∀ v, v < 64 → b64val (b64chr v) = some v := by decide

theorem b64chr_ne_pad : ∀ v, v < 64 → b64chr v ≠ '=' := by decide

/-- Decoding a standard base64 encoding recovers the original bytes. -/
theorem b64decode_b64encode (l : List ℕ) (hb : ∀ x ∈ l, x < 256) :
    b64decode (b64encode l) = Except.ok l := by
  induction l using b64encode.induct with
  | case1 => rfl
  | case2 a =>
    have ha : a < 256 := hb a (by simp)
    have e1 : a / 4 * 4 + a % 4 * 16 / 16 = a := by omega
    simp [b64encode, b64decode, b64val_b64chr _ (show a / 4 < 64 by omega),
      b64val_b64chr _ (show a % 4 * 16 < 64 by omega),
      show a % 4 * 16 % 16 = 0 by omega, e1]
    all_goals omega
  | case3 a b =>
    have ha : a < 256 := hb a (by simp)
    have hbb : b < 256 := hb b (by simp)
    have e1 : a / 4 * 4 + (a % 4 * 16 + b / 16) / 16 = a := by omega
    have e2 : (a % 4 * 16 + b / 16) % 16 * 16 + b % 16 * 4 / 4 = b := by omega
    simp [b64encode, b64decode,
      b64val_b64chr _ (show a / 4 < 64 by omega),
      b64val_b64chr _ (show a % 4 * 16 + b / 16 < 64 by omega),
      b64val_b64chr _ (show b % 16 * 4 < 64 by omega),
      b64chr_ne_pad _ (show b % 16 * 4 < 64 by omega),
      show b % 16 * 4 % 4 = 0 by omega, e1, e2]
    all_goals omega
  | case4 a b c rest ih =>
    have ha : a < 256 := hb a (by simp)
    have hbb : b < 256 := hb b (by simp)
    have hc : c < 256 := hb c (by simp)
    have e1 : a / 4 * 4 + (a % 4 * 16 + b / 16) / 16 = a := by omega
    have e2 : (a % 4 * 16 + b / 16) % 16 * 16 + (b % 16 * 4 + c / 64) / 4 = b :=
      by omega
    have e3 : (b % 16 * 4 + c / 64) % 4 * 64 + c % 64 = c := by omega
    have hcond : ¬(b64encode rest = [] ∧ b64chr (c % 64) = '=') :=
      fun hand => b64chr_ne_pad _ (by omega) hand.2
    simp [b64encode, b64decode,
      b64val_b64chr _ (show a / 4 < 64 by omega),
      b64val_b64chr _ (show a % 4 * 16 + b / 16 < 64 by omega),
      b64val_b64chr _ (show b % 16 * 4 + c / 64 < 64 by omega),
      b64val_b64chr _ (show c % 64 < 64 by omega), hcond,
      ih fun x hx => hb x (List.mem_cons_of_mem a (List.mem_cons_of_mem b
        (List.mem_cons_of_mem c hx))), e1, e2, e3]

/-- Reduction to a 32-bit word. -/
def u32 (x : ℕ) : ℕ := x % 2 ^ 32

/-- 32-bit left rotation. -/
def rotl32 (x n : ℕ) : ℕ := u32 ((x <<< n) ||| (x >>> (32 - n)))

/-- Little-endian bytes of a 32-bit word. -/
def le32 (w : ℕ) : List ℕ :=
  [w % 256, w / 256 % 256, w / 65536 % 256, w / 16777216 % 256]

/-- Little-endian bytes of all words of a list. -/
def wordsToBytesLE : List ℕ → List ℕ
  | [] => []
  | w :: ws => le32 w ++ wordsToBytesLE ws

/-- Groups bytes into little-endian 32-bit words (complete groups only). -/
def bytesToWordsLE : List ℕ → List ℕ
  | b0 :: b1 :: b2 :: b3 :: rest =>
    (b0 + 256 * b1 + 65536 * b2 + 16777216 * b3) :: bytesToWordsLE rest
  | _ => []

/-- The ChaCha20 quarter round on state indices `a b c d` (RFC 8439 §2.1). -/
def chachaQR (st : List ℕ) (a b c d : ℕ) : List ℕ :=
  let xa := u32 (st.getD a 0 + st.getD b 0)
  let xd := rotl32 (st.getD d 0 ^^^ xa) 16
  let xc := u32 (st.getD c 0 + xd)
  let xb := rotl32 (st.getD b 0 ^^^ xc) 12
  let ya := u32 (xa + xb)
  let yd := rotl32 (xd ^^^ ya) 8
  let yc := u32 (xc + yd)
  let yb := rotl32 (xb ^^^ yc) 7
  (((st.set a ya).set b yb).set c yc).set d yd

/-- One ChaCha20 double round: four column rounds then four diagonal
rounds. -/
def chachaDoubleRound (st : List ℕ) : List ℕ :=
  chachaQR (chachaQR (chachaQR (chachaQR (chachaQR (chachaQR (chachaQR
    (chachaQR st 0 4 8 12) 1 5 9 13) 2 6 10 14) 3 7 11 15) 0 5 10 15)
    1 6 11 12) 2 7 8 13) 3 4 9 14

/-- Iterates the double round. -/
def chachaCore (st : List ℕ) : ℕ → List ℕ
  | 0 => st
  | n + 1 => chachaCore (chachaDoubleRound st) n

/-- The ChaCha20 block function (RFC 8439 §2.3): 64 keystream bytes for a
32-byte key, block counter, and 12-byte nonce. -/
def chachaBlock (key : List ℕ) (counter : ℕ) (nonce : List ℕ) : List ℕ :=
  let init := [0x61707865, 0x3320646e, 0x79622d32, 0x6b206574] ++
    bytesToWordsLE key ++ [u32 counter] ++ bytesToWordsLE nonce
  wordsToBytesLE (List.zipWith (fun a b => u32 (a + b)) init
    (chachaCore init 10))

/-- `n` ChaCha20 keystream blocks starting at the given counter. -/
def chachaKeystream (key nonce : List ℕ) (counter : ℕ) : ℕ → List ℕ
  | 0 => []
  | n + 1 => chachaBlock key counter nonce ++
      chachaKeystream key nonce (counter + 1) n

/-- ChaCha20 encryption (= decryption): XOR with the keystream, block
counter starting at 1 as in the RFC 8439 AEAD. -/
def chachaEncrypt (key nonce msg : List ℕ) : List ℕ :=
  List.zipWith (fun a b => a ^^^ b) msg
    (chachaKeystream key nonce 1 ((msg.length + 63) / 64))

/-- Poly1305 `r` clamping. -/
def polyClamp (r : ℕ) : ℕ := r &&& 0x0ffffffc0ffffffc0ffffffc0fffffff

/-- A byte string as a little-endian natural number. -/
def leNat (bytes : List ℕ) : ℕ := Nat.ofDigits 256 bytes

/-- Splits a byte string into 16-byte chunks (fuel-driven so that the
definition stays structurally recursive). -/
def chunks16Aux : ℕ → List ℕ → List (List ℕ)
  | 0, _ => []
  | _, [] => []
  | fuel + 1, l => l.take 16 :: chunks16Aux fuel (l.drop 16)

def chunks16 (l : List ℕ) : List (List ℕ) := chunks16Aux l.length l

/-- Little-endian 16 bytes of a number (used for the Poly1305 tag). -/
def le128 (n : ℕ) : List ℕ := (List.range 16).map fun i => n / 256 ^ i % 256

/-- The Poly1305 MAC (RFC 8439 §2.5) over a 32-byte one-time key. -/
def poly1305Mac (key32 : List ℕ) (msg : List ℕ) : List ℕ :=
  let r := polyClamp (leNat (key32.take 16))
  let s := leNat (key32.drop 16)
  let p := 2 ^ 130 - 5
  let acc := (chunks16 msg).foldl
    (fun acc chunk => (acc + leNat (chunk ++ [1])) * r % p) 0
  le128 ((acc + s) % 2 ^ 128)

/-- The Poly1305 one-time key: the first 32 bytes of ChaCha20 block 0. -/
def polyKey (key nonce : List ℕ) : List ℕ := (chachaBlock key 0 nonce).take 32

/-- 8 little-endian length bytes (RFC 8439 §2.8). -/
def le64 (n : ℕ) : List ℕ := (List.range 8).map fun i => n / 256 ^ i % 256

def pad16len (n : ℕ) : ℕ := (16 - n % 16) % 16

/-- The Poly1305 input of the ChaCha20-Poly1305 AEAD construction. -/
def aeadMacData (aad ct : List ℕ) : List ℕ :=
  aad ++ List.replicate (pad16len aad.length) 0 ++
    ct ++ List.replicate (pad16len ct.length) 0 ++
    le64 aad.length ++ le64 ct.length

/-- ChaCha20-Poly1305 sealing (`cipher.encrypt`): ciphertext followed by the
16-byte tag. -/
def aeadEncrypt (key nonce aad msg : List ℕ) : List ℕ :=
  chachaEncrypt key nonce msg ++
    poly1305Mac (polyKey key nonce)
      (aeadMacData aad (chachaEncrypt key nonce msg))

/-- ChaCha20-Poly1305 opening (`cipher.decrypt`): splits off the trailing
16-byte tag, verifies it, then decrypts; `none` is the opaque
`aead::Error`. -/
def aeadDecrypt (key nonce aad sealed : List ℕ) : Option (List ℕ) :=
  if sealed.length < 16 then none
  else
    if poly1305Mac (polyKey key nonce)
        (aeadMacData aad (sealed.take (sealed.length - 16))) =
        sealed.drop (sealed.length - 16) then
      some (chachaEncrypt key nonce (sealed.take (sealed.length - 16)))
    else none

def TYPE_0 : ℕ := 0

def TYPE_1 : ℕ := 1

/-- Model of `payload::PayloadError` (messages and index payloads kept where
the claims need them). -/
inductive PayloadError where
  | Base64Decode (e : B64DecodeError)
  | Decryption (msg : String)
  | Encryption (msg : String)
  | InitVecLen (len : ℕ)
  | SymKeyLen (len : ℕ)
  | ParseInitVecLen (start finish : ℕ)
  | ParseSenderPublicKeyLen (start finish : ℕ)
  | PayloadJson
  | UnsupportedEnvelopeType (t : ℕ)
  | UnexpectedEnvelopeType (t expected : ℕ)
deriving DecidableEq

/-- Model of `payload::EnvelopeType`. -/
inductive EnvelopeType where
  | Type0
  | Type1 (senderPublicKey : List ℕ)
deriving DecidableEq

/-- Model of `payload::EncodingParams`. -/
structure EncodingParams where
  sealed : List ℕ
  initVec : List ℕ
  envelopeType : EnvelopeType
deriving DecidableEq

/-- Model of `EncodingParams::parse_decoded`.  `none` marks a panic of the
Rust code: `data[0]` on an empty buffer, and the fixed-position slices
`data[1..13]` (type 0) or `data[33..45]` (type 1) on a buffer that is too
short, all index out of bounds.  The `try_into` length checks that map to
`ParseInitVecLen`/`ParseSenderPublicKeyLen` are kept, although they can
never fail once the slices exist. -/
def parseDecoded (data : List ℕ) : Option (Except PayloadError EncodingParams) :=
  match data with
  | [] => none
  | t :: _ =>
    if t = TYPE_0 then
      if data.length < 13 then none
      else
        if ((data.drop 1).take 12).length = 12 then
          some (Except.ok ⟨data.drop 13, (data.drop 1).take 12,
            EnvelopeType.Type0⟩)
        else some (Except.error (PayloadError.ParseInitVecLen 1 13))
    else if t = TYPE_1 then
      if data.length < 45 then none
      else
        if ((data.drop 33).take 12).length = 12 then
          if ((data.drop 1).take 32).length = 32 then
            some (Except.ok ⟨data.drop 45, (data.drop 33).take 12,
              EnvelopeType.Type1 ((data.drop 1).take 32)⟩)
          else some (Except.error (PayloadError.ParseSenderPublicKeyLen 33 45))
        else some (Except.error (PayloadError.ParseInitVecLen 33 45))
    else some (Except.error (PayloadError.UnsupportedEnvelopeType t))

/-- Model of `payload::encode`. -/
def encodeEnvelope (envelopeType : EnvelopeType) (sealed initVec : List ℕ) :
    List Char :=
  match envelopeType with
  | EnvelopeType.Type0 => b64encode ([TYPE_0] ++ initVec ++ sealed)
  | EnvelopeType.Type1 sender =>
    b64encode ([TYPE_1] ++ sender ++ initVec ++ sealed)

/-- Model of `payload::encrypt_and_encode` with the `OsRng` nonce passed in
as an argument.  The `try_into` checks of the key and nonce lengths are
kept; `cipher.encrypt` itself cannot fail for these parameters. -/
def encryptAndEncode (envelopeType : EnvelopeType) (msg key nonce : List ℕ) :
    Except PayloadError (List Char) :=
  if key.length = 32 then
    if nonce.length = 12 then
      Except.ok (encodeEnvelope envelopeType (aeadEncrypt key nonce [] msg)
        nonce)
    else Except.error (PayloadError.InitVecLen nonce.length)
  else Except.error (PayloadError.SymKeyLen key.length)

/-- Models the validity check of Rust's `String::from_utf8` (RFC 3629
well-formed UTF-8). -/
def utf8Valid : List ℕ → Bool
  | [] => true
  | b :: rest =>
    if b ≤ 127 then utf8Valid rest
    else if 194 ≤ b ∧ b ≤ 223 then
      match rest with
      | b1 :: rest2 =>
        if 128 ≤ b1 ∧ b1 ≤ 191 then utf8Valid rest2 else false
      | [] => false
    else if b = 224 then
      match rest with
      | b1 :: b2 :: rest2 =>
        if (160 ≤ b1 ∧ b1 ≤ 191) ∧ (128 ≤ b2 ∧ b2 ≤ 191) then utf8Valid rest2
        else false
      | _ => false
    else if (225 ≤ b ∧ b ≤ 236) ∨ b = 238 ∨ b = 239 then
      match rest with
      | b1 :: b2 :: rest2 =>
        if (128 ≤ b1 ∧ b1 ≤ 191) ∧ (128 ≤ b2 ∧ b2 ≤ 191) then utf8Valid rest2
        else false
      | _ => false
    else if b = 237 then
      match rest with
      | b1 :: b2 :: rest2 =>
        if (128 ≤ b1 ∧ b1 ≤ 159) ∧ (128 ≤ b2 ∧ b2 ≤ 191) then utf8Valid rest2
        else false
      | _ => false
    else if b = 240 then
      match rest with
      | b1 :: b2 :: b3 :: rest2 =>
        if (144 ≤ b1 ∧ b1 ≤ 191) ∧ (128 ≤ b2 ∧ b2 ≤ 191) ∧
            (128 ≤ b3 ∧ b3 ≤ 191) then utf8Valid rest2
        else false
      | _ => false
    else if 241 ≤ b ∧ b ≤ 243 then
      match rest with
      | b1 :: b2 :: b3 :: rest2 =>
        if (128 ≤ b1 ∧ b1 ≤ 191) ∧ (128 ≤ b2 ∧ b2 ≤ 191) ∧
            (128 ≤ b3 ∧ b3 ≤ 191) then utf8Valid rest2
        else false
      | _ => false
    else if b = 244 then
      match rest with
      | b1 :: b2 :: b3 :: rest2 =>
        if (128 ≤ b1 ∧ b1 ≤ 143) ∧ (128 ≤ b2 ∧ b2 ≤ 191) ∧
            (128 ≤ b3 ∧ b3 ≤ 191) then utf8Valid rest2
        else false
      | _ => false
    else false

/-- Model of `payload::decode_and_decrypt_type0`.  A successful result is
the UTF-8 byte content of the returned Rust `String` (`String::from_utf8`
keeps the bytes unchanged); `none` marks a panic inside
`parse_decoded`. -/
def decodeAndDecryptType0 (msg : List Char) (key : List ℕ) :
    Option (Except PayloadError (List ℕ)) :=
  match b64decode msg with
  | Except.error e => some (Except.error (PayloadError.Base64Decode e))
  | Except.ok data =>
    match parseDecoded data with
    | none => none
    | some (Except.error e) => some (Except.error e)
    | some (Except.ok decoded) =>
      match decoded.envelopeType with
      | EnvelopeType.Type1 _ =>
        some (Except.error (PayloadError.UnexpectedEnvelopeType TYPE_1 TYPE_0))
      | EnvelopeType.Type0 =>
        if decoded.initVec.length = 12 then
          if key.length = 32 then
            match aeadDecrypt key decoded.initVec [] decoded.sealed with
            | none => some (Except.error (PayloadError.Decryption "aead::Error"))
            | some plain =>
              if utf8Valid plain then some (Except.ok plain)
              else some (Except.error PayloadError.PayloadJson)
          else some (Except.error (PayloadError.SymKeyLen key.length))
        else some (Except.error (PayloadError.InitVecLen decoded.initVec.length))

theorem chachaQR_length (st : List ℕ) (a b c d : ℕ) :
    (chachaQR st a b c d).length = st.length := by
  simp [chachaQR]

theorem chachaDoubleRound_length (st : List ℕ) :
    (chachaDoubleRound st).length = st.length := by
  unfold chachaDoubleRound
  simp only [chachaQR_length]

theorem chachaCore_length (n : ℕ) : ∀ st : List ℕ,
    (chachaCore st n).length = st.length := by
  induction n with
  | zero => intro st; rfl
  | succ m ih =>
    intro st
    simp only [chachaCore]
    rw [ih, chachaDoubleRound_length]

theorem bytesToWordsLE_length (n : ℕ) : ∀ l : List ℕ, l.length = 4 * n →
    (bytesToWordsLE l).length = n := by
  induction n with
  | zero =>
    intro l h
    cases l with
    | nil => rfl
    | cons b t => exact absurd h (by simp only [List.length_cons]; omega)
  | succ m ih =>
    intro l h
    cases l with
    | nil => exact absurd h (by simp only [List.length_nil]; omega)
    | cons b0 t1 =>
      cases t1 with
      | nil => exact absurd h (by simp only [List.length_cons, List.length_nil]; omega)
      | cons b1 t2 =>
        cases t2 with
        | nil => exact absurd h (by simp only [List.length_cons, List.length_nil]; omega)
        | cons b2 t3 =>
          cases t3 with
          | nil => exact absurd h (by simp only [List.length_cons, List.length_nil]; omega)
          | cons b3 rest =>
            simp only [bytesToWordsLE, List.length_cons]
            rw [ih rest (by simp at h; omega)]

theorem wordsToBytesLE_length : ∀ l : List ℕ,
    (wordsToBytesLE l).length = 4 * l.length
  | [] => rfl
  | w :: ws => by
    simp only [wordsToBytesLE, le32, List.length_append, List.length_cons,
      wordsToBytesLE_length ws]
    simp
    omega

theorem wordsToBytesLE_lt : ∀ (l : List ℕ) (x : ℕ), x ∈ wordsToBytesLE l →
    x < 256
  | [], _, hx => absurd hx (List.not_mem_nil _)
  | w :: ws, x, hx => by
    rcases List.mem_append.mp hx with hx | hx
    · simp only [le32, List.mem_cons, List.not_mem_nil, or_false] at hx
      rcases hx with h | h | h | h <;> subst h <;>
        exact Nat.mod_lt _ (by norm_num)
    · exact wordsToBytesLE_lt ws x hx

theorem chachaBlock_length (key nonce : List ℕ) (counter : ℕ)
    (hk : key.length = 32) (hn : nonce.length = 12) :
    (chachaBlock key counter nonce).length = 64 := by
  unfold chachaBlock
  rw [wordsToBytesLE_length, List.length_zipWith, chachaCore_length]
  have h1 : (bytesToWordsLE key).length = 8 := bytesToWordsLE_length 8 key (by omega)
  have h2 : (bytesToWordsLE nonce).length = 3 := bytesToWordsLE_length 3 nonce (by omega)
  simp [h1, h2]

theorem chachaBlock_lt (key nonce : List ℕ) (counter : ℕ) (x : ℕ)
    (hx : x ∈ chachaBlock key counter nonce) : x < 256 :=
  wordsToBytesLE_lt _ x hx

theorem chachaKeystream_length (key nonce : List ℕ)
    (hk : key.length = 32) (hn : nonce.length = 12) :
    ∀ (n counter : ℕ), (chachaKeystream key nonce counter n).length = 64 * n
  | 0, _ => rfl
  | n + 1, counter => by
    simp only [chachaKeystream, List.length_append,
      chachaBlock_length key nonce counter hk hn,
      chachaKeystream_length key nonce hk hn n (counter + 1)]
    omega

theorem chachaKeystream_lt (key nonce : List ℕ) :
    ∀ (n counter x : ℕ), x ∈ chachaKeystream key nonce counter n → x < 256
  | 0, _, _, hx => absurd hx (List.not_mem_nil _)
  | n + 1, counter, x, hx => by
    rcases List.mem_append.mp hx with hx | hx
    · exact chachaBlock_lt key nonce counter x hx
    · exact chachaKeystream_lt key nonce n (counter + 1) x hx

theorem chachaEncrypt_length (key nonce m : List ℕ)
    (hk : key.length = 32) (hn : nonce.length = 12) :
    (chachaEncrypt key nonce m).length = m.length := by
  unfold chachaEncrypt
  rw [List.length_zipWith, chachaKeystream_length key nonce hk hn]
  omega

theorem zipWith_xor_lt : ∀ (m ks : List ℕ), (∀ x ∈ m, x < 256) →
    (∀ x ∈ ks, x < 256) → ∀ x ∈ List.zipWith (fun a b => a ^^^ b) m ks,
      x < 256
  | [], _, _, _, x, hx => absurd hx (List.not_mem_nil _)
  | _ :: _, [], _, _, x, hx => absurd hx (List.not_mem_nil _)
  | a :: m, k :: ks, hm, hks, x, hx => by
    rcases List.mem_cons.mp hx with hx | hx
    · subst hx
      have ha2 : a < 2 ^ 8 := hm a (by simp)
      have hk2 : k < 2 ^ 8 := hks k (by simp)
      exact Nat.xor_lt_two_pow ha2 hk2
    · exact zipWith_xor_lt m ks (fun y hy => hm y (List.mem_cons_of_mem a hy))
        (fun y hy => hks y (List.mem_cons_of_mem k hy)) x hx

theorem zipWith_xor_cancel : ∀ (m ks : List ℕ), m.length ≤ ks.length →
    List.zipWith (fun a b => a ^^^ b)
      (List.zipWith (fun a b => a ^^^ b) m ks) ks = m
  | [], _, _ => by simp
  | _ :: _, [], h => by simp at h
  | a :: m, k :: ks, h => by
    simp only [List.zipWith_cons_cons]
    rw [Nat.xor_cancel_right, zipWith_xor_cancel m ks (by simpa using h)]

theorem poly1305Mac_length (key32 msg : List ℕ) :
    (poly1305Mac key32 msg).length = 16 := by
  simp [poly1305Mac, le128]

theorem poly1305Mac_lt (key32 msg : List ℕ) (x : ℕ)
    (hx : x ∈ poly1305Mac key32 msg) : x < 256 := by
  simp only [poly1305Mac, le128, List.mem_map] at hx
  obtain ⟨i, _, hi⟩ := hx
  rw [← hi]
  exact Nat.mod_lt _ (by norm_num)

/-- ChaCha20 encryption is an involution. -/
theorem chachaEncrypt_chachaEncrypt (key nonce m : List ℕ)
    (hk : key.length = 32) (hn : nonce.length = 12) :
    chachaEncrypt key nonce (chachaEncrypt key nonce m) = m := by
  unfold chachaEncrypt
  have hlen2 : (List.zipWith (fun a b => a ^^^ b) m
      (chachaKeystream key nonce 1 ((m.length + 63) / 64))).length =
      m.length := by
    rw [List.length_zipWith, chachaKeystream_length key nonce hk hn]
    omega
  rw [hlen2]
  exact zipWith_xor_cancel m _ (by
    rw [chachaKeystream_length key nonce hk hn]
    omega)

/-- Opening a ChaCha20-Poly1305 sealed box with the parameters that sealed
it recovers the plaintext. -/
theorem aeadDecrypt_aeadEncrypt (key nonce aad m : List ℕ)
    (hk : key.length = 32) (hn : nonce.length = 12) :
    aeadDecrypt key nonce aad (aeadEncrypt key nonce aad m) = some m := by
  unfold aeadEncrypt aeadDecrypt
  have hctlen : (chachaEncrypt key nonce m).length = m.length :=
    chachaEncrypt_length key nonce m hk hn
  have htaglen : (poly1305Mac (polyKey key nonce)
      (aeadMacData aad (chachaEncrypt key nonce m))).length = 16 :=
    poly1305Mac_length _ _
  have hlen : (chachaEncrypt key nonce m ++ poly1305Mac (polyKey key nonce)
      (aeadMacData aad (chachaEncrypt key nonce m))).length =
      m.length + 16 := by
    rw [List.length_append, hctlen, htaglen]
  rw [if_neg (by omega)]
  have hctl : (chachaEncrypt key nonce m).length =
      (chachaEncrypt key nonce m ++ poly1305Mac (polyKey key nonce)
        (aeadMacData aad (chachaEncrypt key nonce m))).length - 16 := by
    omega
  rw [List.take_left' hctl, List.drop_left' hctl, if_pos rfl,
    chachaEncrypt_chachaEncrypt key nonce m hk hn]

/-- Parsing a well-formed type-0 envelope body. -/
theorem parseDecoded_type0 (iv sealed : List ℕ) (hiv : iv.length = 12) :
    parseDecoded ([TYPE_0] ++ iv ++ sealed) =
      some (Except.ok ⟨sealed, iv, EnvelopeType.Type0⟩) := by
  have htake12 : ((([TYPE_0] ++ iv ++ sealed).drop 1).take 12) = iv := by
    rw [show ([TYPE_0] ++ iv ++ sealed).drop 1 = iv ++ sealed from rfl,
      List.take_left' hiv]
  have hdrop13 : ([TYPE_0] ++ iv ++ sealed).drop 13 = sealed := by
    rw [show ([TYPE_0] ++ iv ++ sealed).drop 13 = (iv ++ sealed).drop 12
      from rfl, List.drop_left' hiv]
  have hlen : ¬(([TYPE_0] ++ iv ++ sealed).length < 13) := by
    simp only [List.length_append, List.length_cons, List.length_nil, hiv]
    omega
  simp only [parseDecoded, htake12, hdrop13, hiv]
  simp [hlen]
  omega

/-- C9 evidence: `decode_and_decrypt_type0` panics (out-of-bounds indexing
inside `parse_decoded`) on the empty payload (`data[0]` of an empty buffer)
and on `"AAAA"`, whose three decoded bytes are too short for the
`data[1..13]` nonce slice. -/
theorem decodeAndDecryptType0_panics :
    decodeAndDecryptType0 [] (List.replicate 32 0) = none ∧
    decodeAndDecryptType0 ['A', 'A', 'A', 'A'] (List.replicate 32 0) =
      none := by
  constructor
  · rfl
  · rfl

/-- C1 (amended): the type-0 round trip decrypts back to the exact plaintext
bytes, and the final `String::from_utf8` turns them into the returned
string, succeeding exactly when the plaintext is valid UTF-8 (non-UTF-8
plaintexts fail with `PayloadJson`). -/
theorem encryptAndEncode_decodeAndDecryptType0 (key nonce m : List ℕ)
    (hk : key.length = 32) (hn : nonce.length = 12)
    (hnb : ∀ x ∈ nonce, x < 256) (hmb : ∀ x ∈ m, x < 256) :
    encryptAndEncode EnvelopeType.Type0 m key nonce =
      Except.ok (encodeEnvelope EnvelopeType.Type0
        (aeadEncrypt key nonce [] m) nonce) ∧
    decodeAndDecryptType0
        (encodeEnvelope EnvelopeType.Type0 (aeadEncrypt key nonce [] m) nonce)
        key =
      some (if utf8Valid m then Except.ok m
        else Except.error PayloadError.PayloadJson) := by
  have hsb : ∀ x ∈ aeadEncrypt key nonce [] m, x < 256 := by
    intro x hx
    unfold aeadEncrypt at hx
    rcases List.mem_append.mp hx with hx | hx
    · exact zipWith_xor_lt m _ hmb
        (fun y hy => chachaKeystream_lt key nonce _ _ y hy) x hx
    · exact poly1305Mac_lt _ _ x hx
  have henv : ∀ x ∈ [TYPE_0] ++ nonce ++ aeadEncrypt key nonce [] m,
      x < 256 := by
    intro x hx
    rcases List.mem_cons.mp hx with hx | hx
    · rw [hx]
      decide
    · rcases List.mem_append.mp hx with hx | hx
      · exact hnb x hx
      · exact hsb x hx
  constructor
  · unfold encryptAndEncode
    rw [if_pos hk, if_pos hn]
  · simp only [decodeAndDecryptType0, encodeEnvelope,
      b64decode_b64encode _ henv,
      parseDecoded_type0 nonce (aeadEncrypt key nonce [] m) hn, hn, hk,
      aeadDecrypt_aeadEncrypt key nonce [] m hk hn]
    rw [if_pos trivial, if_pos trivial]
    by_cases hu : utf8Valid m = true
    · rw [if_pos hu, if_pos hu]
    · rw [if_neg hu, if_neg hu]

set_option maxRecDepth 10000 in
set_option maxHeartbeats 4000000 in
/-- C1 counterexample to the claim as stated: the plaintext `[0xFF]` is not
valid UTF-8, so the round trip returns the `PayloadJson` error instead of
the plaintext. -/
theorem encryptDecryptType0_not_identity_on_bytes :
    encryptAndEncode EnvelopeType.Type0 [255] (List.replicate 32 0)
        (List.replicate 12 0) =
      Except.ok (encodeEnvelope EnvelopeType.Type0
        (aeadEncrypt (List.replicate 32 0) (List.replicate 12 0) [] [255])
        (List.replicate 12 0)) ∧
    decodeAndDecryptType0
        (encodeEnvelope EnvelopeType.Type0
          (aeadEncrypt (List.replicate 32 0) (List.replicate 12 0) [] [255])
          (List.replicate 12 0))
        (List.replicate 32 0) =
      some (Except.error PayloadError.PayloadJson) := by
  constructor
  · rfl
  · decide

/-- Witness for the amended C1 at the two-byte ASCII plaintext `"hi"`. -/
theorem encryptAndEncode_decodeAndDecryptType0_witness :
    ((List.replicate 32 (0 : ℕ)).length = 32 ∧
      (List.replicate 12 (0 : ℕ)).length = 12) ∧
      decodeAndDecryptType0
          (encodeEnvelope EnvelopeType.Type0
            (aeadEncrypt (List.replicate 32 0) (List.replicate 12 0) []
              [104, 105])
            (List.replicate 12 0))
          (List.replicate 32 0) =
        some (if utf8Valid [104, 105] then Except.ok [104, 105]
          else Except.error PayloadError.PayloadJson) :=
  ⟨⟨by decide, by decide⟩,
    (encryptAndEncode_decodeAndDecryptType0 (List.replicate 32 0)
      (List.replicate 12 0) [104, 105] (by decide) (by decide) (by decide)
      (by decide)).2⟩
